import Mathlib

/-!
Verification of the pydo recurring/repeating task engine.

This file gives a shallow embedding, in Lean 4, of the core of the pydo
task manager:

* `pydo/model/date.py`    : the date expression evaluator (`convert_date`,
  `_convert_weekday`, `_str2date`, `_next_weekday`, `_next_monthday`);
* `pydo/model/__init__.py`: the `Entity` base class (`Entity.close`);
* `pydo/model/task.py`    : `Task`, `RecurrentTask`, the two next-due
  policies (`_next_recurring_due`, `_next_repeating_due`),
  `_generate_children_attributes` and `breed_children`;
* `pydo/services.py`      : the in-memory effects of `_close_task`.

Python `datetime` values are embedded as records of `Nat` fields; the
`dateutil.relativedelta` library calls made by the source are embedded by
`applyRel` below, following the documented semantics of
`relativedelta.__radd__` (absolute year/month arithmetic with day
clamping, then a timedelta, then a weekday adjustment).  Python exceptions
are embedded as an error type `PyErr` that records the exception class and
message, and fallible functions return `Except PyErr _`.  The unbounded
`while True` loop of `_next_recurring_due` is embedded with explicit fuel:
`.ok none` means the loop is still running after `fuel` iterations.
-/

/-- Exception classes raised (or declared) by the pydo source, together
with their message.  `pydo/exceptions.py` declares `TaskAttributeError`,
`DateParseError` and `EntityNotFoundError`; the date evaluator itself only
ever raises builtin `ValueError`/`TypeError`. -/
inductive PyErr where
  | valueError (msg : String)
  | typeError (msg : String)
  | taskAttributeError (msg : String)
  | dateParseError (msg : String)
deriving DecidableEq, Repr

/-- Embedding of a Python `datetime.datetime` (microseconds are never
produced by the embedded code and are omitted).  Python guarantees
`1 <= month <= 12`, `1 <= day <= days_in_month`, `hour <= 23`,
`minute, second <= 59`; on this embedding those facts are the
`DateTime.WellFormed` predicate defined below. -/
structure DateTime where
  year : Nat
  month : Nat
  day : Nat
  hour : Nat
  minute : Nat
  second : Nat
deriving DecidableEq, Repr

/-- Gregorian leap year test, as in Python `calendar.isleap`. -/
def isLeap (y : Nat) : Bool := y % 4 == 0 && (y % 100 != 0 || y % 400 == 0)

/-- Number of days of month `m` of year `y` (Python
`calendar.monthrange(y, m)[1]`); `0` outside `1..12`. -/
def daysInMonth (y m : Nat) : Nat :=
  match m with
  | 1 => 31 | 2 => if isLeap y then 29 else 28 | 3 => 31 | 4 => 30 | 5 => 31
  | 6 => 30 | 7 => 31 | 8 => 31 | 9 => 30 | 10 => 31 | 11 => 30 | 12 => 31
  | _ => 0

/-- Days in the year before month `m` starts, as in CPython
`datetime._days_before_month` (cumulative table plus leap adjustment). -/
def daysBeforeMonth (y m : Nat) : Nat :=
  (match m with
   | 1 => 0 | 2 => 31 | 3 => 59 | 4 => 90 | 5 => 120 | 6 => 151 | 7 => 181
   | 8 => 212 | 9 => 243 | 10 => 273 | 11 => 304 | 12 => 334 | _ => 0) +
  (if 2 < m && isLeap y then 1 else 0)

/-- Number of days of year `y`. -/
def daysInYear (y : Nat) : Nat := 365 + (if isLeap y then 1 else 0)

/-- Days before January 1 of year `y`, as in CPython
`datetime._days_before_year`. -/
def daysBeforeYear (y : Nat) : Nat :=
  365 * (y - 1) + (y - 1) / 4 - (y - 1) / 100 + (y - 1) / 400

/-- Proleptic Gregorian ordinal of a date, as in Python
`datetime.toordinal` (0001-01-01 has ordinal 1). -/
def toOrdinal (d : DateTime) : Nat :=
  daysBeforeYear d.year + daysBeforeMonth d.year d.month + d.day

/-- Python `datetime.weekday()`: Monday is `0`.  0001-01-01 (ordinal 1)
was a Monday. -/
def weekdayOf (d : DateTime) : Nat := (toOrdinal d + 6) % 7

/-- Successor day in the calendar, keeping the time of day.  This is the
semantics of adding `timedelta(days=1)` to a Python datetime. -/
def nextDay (d : DateTime) : DateTime :=
  if d.day < daysInMonth d.year d.month then { d with day := d.day + 1 }
  else if d.month < 12 then { d with month := d.month + 1, day := 1 }
  else { d with year := d.year + 1, month := 1, day := 1 }

/-- Predecessor day in the calendar, keeping the time of day.  This is the
semantics of adding `timedelta(days=-1)`, used by the `yesterday` branch
of `convert_date`. -/
def prevDay (d : DateTime) : DateTime :=
  if 1 < d.day then { d with day := d.day - 1 }
  else if 1 < d.month then { d with month := d.month - 1, day := daysInMonth d.year (d.month - 1) }
  else { d with year := d.year - 1, month := 12, day := 31 }

/-- Add `k` days to a datetime. -/
def addDaysNat (d : DateTime) : Nat → DateTime
  | 0 => d
  | k + 1 => nextDay (addDaysNat d k)

/-- Seconds elapsed since midnight. -/
def secondsOfDay (d : DateTime) : Nat := d.hour * 3600 + d.minute * 60 + d.second

/-- Add a non-negative `timedelta` of `total` seconds to a datetime
(Python `datetime + timedelta`).  Adding a zero timedelta returns an
equal datetime, which the first branch states directly. -/
def addClockSeconds (d : DateTime) (total : Nat) : DateTime :=
  if total = 0 then d
  else
    let s := secondsOfDay d + total
    let base := addDaysNat d (s / 86400)
    let rem := s % 86400
    { base with hour := rem / 3600, minute := rem % 3600 / 60, second := rem % 60 }

/-- Embedding of a `dateutil.relativedelta.relativedelta` value as built
by the pydo source.  `_str2date` only ever accumulates the non-negative
relative fields `years/months/days/hours/minutes/seconds` (`weeks` are
folded into `days` by the `relativedelta` constructor), and
`_next_weekday`/`_next_monthday` additionally use the absolute `day`
field and a `weekday(n)` adjustment, embedded as `dayAbs` and
`weekdayAbs` (weekday number, ordinal `n`). -/
structure RelDelta where
  years : Nat := 0
  months : Nat := 0
  days : Nat := 0
  hours : Nat := 0
  minutes : Nat := 0
  seconds : Nat := 0
  dayAbs : Option Nat := none
  weekdayAbs : Option (Nat × Nat) := none
deriving DecidableEq, Repr

/-- Normalisation performed by `relativedelta._fix` after construction and
addition: seconds over 59 carry into minutes, minutes into hours, hours
into days, and months over 11 into years (all fields here are
non-negative). -/
def fixDelta (r : RelDelta) : RelDelta :=
  let r1 := if 59 < r.seconds then
    { r with seconds := r.seconds % 60, minutes := r.minutes + r.seconds / 60 } else r
  let r2 := if 59 < r1.minutes then
    { r1 with minutes := r1.minutes % 60, hours := r1.hours + r1.minutes / 60 } else r1
  let r3 := if 23 < r2.hours then
    { r2 with hours := r2.hours % 24, days := r2.days + r2.hours / 24 } else r2
  if 11 < r3.months then
    { r3 with months := r3.months % 12, years := r3.years + r3.months / 12 } else r3

/-- Application of a relativedelta to a datetime, following
`relativedelta.__radd__`: add `years` and `months` (wrapping the month
and clamping the day to the last day of the target month, where an
absolute `day` replaces the datetime's day before clamping), then add
the `days/hours/minutes/seconds` timedelta, then apply the `weekday(n)`
adjustment (jump to the `n`-th occurrence of the weekday on or after the
current date). -/
def applyRel (r : RelDelta) (d : DateTime) : DateTime :=
  let y1 := d.year + r.years
  let m1 := d.month + r.months
  let y2 := if 12 < m1 then y1 + 1 else y1
  let m2 := if 12 < m1 then m1 - 12 else m1
  let day0 := match r.dayAbs with | some v => v | none => d.day
  let day2 := min (daysInMonth y2 m2) day0
  let base : DateTime :=
    { year := y2, month := m2, day := day2, hour := d.hour, minute := d.minute, second := d.second }
  let t := addClockSeconds base (r.days * 86400 + r.hours * 3600 + r.minutes * 60 + r.seconds)
  match r.weekdayAbs with
  | none => t
  | some (w, n) => addDaysNat t ((n - 1) * 7 + (7 - weekdayOf t + w) % 7)

/-- Python `"…".split(" ")`: split on every single space, without
collapsing runs of spaces (the empty string yields `[""]`). -/
def splitOnSpace : List Char → List (List Char)
  | [] => [[]]
  | c :: rest =>
    match splitOnSpace rest with
    | [] => [[]]
    | t :: ts => if c = ' ' then [] :: t :: ts else (c :: t) :: ts

/-- Longest digit run at the head of a token and the remaining characters,
the two capture groups of the `_str2date` token regex
`(?P<value>[0-9]+)(?P<unit>.*)` (the match fails iff the digit part is
empty). -/
def takeDigits : List Char → (List Char × List Char)
  | [] => ([], [])
  | c :: rest =>
    if c.isDigit then
      let p := takeDigits rest
      (c :: p.1, p.2)
    else ([], c :: rest)

/-- Numeric value of a digit run (Python `int(...)`). -/
def digitsToNat (ds : List Char) : Nat := ds.foldl (fun acc c => acc * 10 + (c.toNat - 48)) 0

/-- The message of the `ValueError` raised by `_str2date` on a token with
no leading digits.  In the source this string literal is NOT an f-string,
so the braces and the word `modifier` appear literally in the message and
the offending input is not interpolated into it. -/
def str2dateMsg : String := "Unable to parse the date string \x7bmodifier\x7d, please enter a valid one"

/-- Message of the `TypeError` raised when `_str2date` reaches its `rmo`
branch.  `_next_monthday` kept a leftover `self` parameter when it was
moved out of a class, so the call `_next_monthday(value, starting_date)`
binds `months` to the reference datetime, and
`relativedelta(months=<datetime>, ...)` raises `TypeError` inside the
`relativedelta` constructor before any date arithmetic happens. -/
def rmoMsg : String :=
  "int() argument must be a string, a bytes-like object or a number, not \x27datetime.datetime\x27"

/-- One iteration of the unit dispatch in `_str2date`: add the token's
value to the accumulated delta according to its unit (the `elif` chain
`s`, `m`, `h`, `d`, `mo`, `w`, `y`, `rmo`), normalising with `fixDelta`
as the `relativedelta` addition does.  A token whose unit matches no
branch leaves the accumulator unchanged (the chain has no `else`), and
the `rmo` branch raises `TypeError` as explained at `rmoMsg`. -/
def addUnit (acc : RelDelta) (value : Nat) (unit : List Char) : Except PyErr RelDelta :=
  if unit = ['s'] then .ok (fixDelta { acc with seconds := acc.seconds + value })
  else if unit = ['m'] then .ok (fixDelta { acc with minutes := acc.minutes + value })
  else if unit = ['h'] then .ok (fixDelta { acc with hours := acc.hours + value })
  else if unit = ['d'] then .ok (fixDelta { acc with days := acc.days + value })
  else if unit = ['m', 'o'] then .ok (fixDelta { acc with months := acc.months + value })
  else if unit = ['w'] then .ok (fixDelta { acc with days := acc.days + 7 * value })
  else if unit = ['y'] then .ok (fixDelta { acc with years := acc.years + value })
  else if unit = ['r', 'm', 'o'] then .error (.typeError rmoMsg)
  else .ok acc

/-- The token loop of `_str2date`: each space-separated token must start
with digits (else `ValueError` with the fixed literal message), and its
unit — the rest of the token up to a newline, i.e. what the regex group
`.*` captures — is dispatched by `addUnit`. -/
def accumTokens (acc : RelDelta) : List (List Char) → Except PyErr RelDelta
  | [] => .ok acc
  | tok :: rest =>
    let p := takeDigits tok
    if p.1 = [] then .error (.valueError str2dateMsg)
    else
      match addUnit acc (digitsToNat p.1) (p.2.takeWhile (fun c => !(c = '\n'))) with
      | .error e => .error e
      | .ok acc2 => accumTokens acc2 rest

/-- Embedding of `_str2date`: accumulate a relativedelta over the
space-separated tokens of the modifier and apply it once to the starting
date. -/
def str2date (cs : List Char) (startingDate : DateTime) : Except PyErr DateTime :=
  match accumTokens {} (splitOnSpace cs) with
  | .error e => .error e
  | .ok delta => .ok (applyRel delta startingDate)

/-- Embedding of `_next_weekday`: if the starting date is already on the
requested weekday advance one day (`relativedelta(days=1)`), then apply
`relativedelta(day=<current day>, weekday=<target>(1))`. -/
def next_weekday (w : Nat) (startingDate : DateTime) : DateTime :=
  let d1 := if weekdayOf startingDate = w then applyRel { days := 1 } startingDate else startingDate
  applyRel { dayAbs := some d1.day, weekdayAbs := some (w, 1) } d1

/-- Embedding of `_convert_weekday`: the chain of case-sensitive
prefix regexes `mon.*`, `tue.*`, …, `sun.*` (Python `re.match` anchors at
the start of the string and is case-sensitive here, no `re.IGNORECASE`). -/
def convert_weekday (cs : List Char) (startingDate : DateTime) : Option DateTime :=
  if List.isPrefixOf "mon".data cs then some (next_weekday 0 startingDate)
  else if List.isPrefixOf "tue".data cs then some (next_weekday 1 startingDate)
  else if List.isPrefixOf "wed".data cs then some (next_weekday 2 startingDate)
  else if List.isPrefixOf "thu".data cs then some (next_weekday 3 startingDate)
  else if List.isPrefixOf "fri".data cs then some (next_weekday 4 startingDate)
  else if List.isPrefixOf "sat".data cs then some (next_weekday 5 startingDate)
  else if List.isPrefixOf "sun".data cs then some (next_weekday 6 startingDate)
  else none

/-- Value of an ASCII digit character. -/
def char2digit (c : Char) : Nat := c.toNat - 48

/-- Prefix match of the regex
`[0-9]{4}-[0-9]{2}-[0-9]{2}T[0-9]{2}:[0-9]{2}` used by `convert_date`. -/
def matchIsoDateTime (cs : List Char) : Bool :=
  match cs with
  | a :: b :: c :: d :: s1 :: e :: f :: s2 :: g :: h :: t :: i :: j :: c1 :: k :: l :: _ =>
    a.isDigit && b.isDigit && c.isDigit && d.isDigit && s1 = '-' &&
    e.isDigit && f.isDigit && s2 = '-' && g.isDigit && h.isDigit &&
    t = 'T' && i.isDigit && j.isDigit && c1 = ':' && k.isDigit && l.isDigit
  | _ => false

/-- Prefix match of the regex `[0-9]{4}.[0-9]{2}.[0-9]{2}` used by
`convert_date` (`.` matches any character except a newline). -/
def matchIsoDate (cs : List Char) : Bool :=
  match cs with
  | a :: b :: c :: d :: s1 :: e :: f :: s2 :: g :: h :: _ =>
    a.isDigit && b.isDigit && c.isDigit && d.isDigit && !(s1 = '\n') &&
    e.isDigit && f.isDigit && !(s2 = '\n') && g.isDigit && h.isDigit
  | _ => false

/-- Message of the `ValueError` raised by `datetime.strptime` on input
that does not exactly match the format. -/
def strptimeFailMsg : String := "time data does not match format"

/-- Embedding of `datetime.strptime(human_date, "%Y-%m-%d")`: the whole
string must be exactly `YYYY-MM-DD` with `-` separators and denote a real
calendar date, otherwise `ValueError`. -/
def strptimeYmd (cs : List Char) : Except PyErr DateTime :=
  match cs with
  | [a, b, c, d, s1, e, f, s2, g, h] =>
    if a.isDigit && b.isDigit && c.isDigit && d.isDigit && s1 = '-' &&
       e.isDigit && f.isDigit && s2 = '-' && g.isDigit && h.isDigit then
      let y := ((char2digit a * 10 + char2digit b) * 10 + char2digit c) * 10 + char2digit d
      let mo := char2digit e * 10 + char2digit f
      let da := char2digit g * 10 + char2digit h
      if 1 ≤ mo && mo ≤ 12 && 1 ≤ da && da ≤ daysInMonth y mo then
        .ok { year := y, month := mo, day := da, hour := 0, minute := 0, second := 0 }
      else .error (.valueError strptimeFailMsg)
    else .error (.valueError strptimeFailMsg)
  | _ => .error (.valueError strptimeFailMsg)

/-- Embedding of `datetime.strptime(human_date, "%Y-%m-%dT%H:%M")`. -/
def strptimeYmdHM (cs : List Char) : Except PyErr DateTime :=
  match cs with
  | [a, b, c, d, s1, e, f, s2, g, h, t, i, j, c1, k, l] =>
    if a.isDigit && b.isDigit && c.isDigit && d.isDigit && s1 = '-' &&
       e.isDigit && f.isDigit && s2 = '-' && g.isDigit && h.isDigit &&
       t = 'T' && i.isDigit && j.isDigit && c1 = ':' && k.isDigit && l.isDigit then
      let y := ((char2digit a * 10 + char2digit b) * 10 + char2digit c) * 10 + char2digit d
      let mo := char2digit e * 10 + char2digit f
      let da := char2digit g * 10 + char2digit h
      let ho := char2digit i * 10 + char2digit j
      let mi := char2digit k * 10 + char2digit l
      if 1 ≤ mo && mo ≤ 12 && 1 ≤ da && da ≤ daysInMonth y mo && ho ≤ 23 && mi ≤ 59 then
        .ok { year := y, month := mo, day := da, hour := ho, minute := mi, second := 0 }
      else .error (.valueError strptimeFailMsg)
    else .error (.valueError strptimeFailMsg)
  | _ => .error (.valueError strptimeFailMsg)

/-- Embedding of `convert_date(human_date, starting_date)` from
`pydo/model/date.py`: try the weekday chain, then the two ISO regexes
(parsed with `strptime`), then the literal keywords `now|today`,
`tomorrow`, `yesterday` (all matched as prefixes, as `re.match` does),
and fall through to `_str2date`. -/
def convert_date (humanDate : String) (startingDate : DateTime) : Except PyErr DateTime :=
  let cs := humanDate.data
  match convert_weekday cs startingDate with
  | some date => .ok date
  | none =>
    if matchIsoDateTime cs then strptimeYmdHM cs
    else if matchIsoDate cs then strptimeYmd cs
    else if List.isPrefixOf "now".data cs || List.isPrefixOf "today".data cs then .ok startingDate
    else if List.isPrefixOf "tomorrow".data cs then .ok (applyRel { days := 1 } startingDate)
    else if List.isPrefixOf "yesterday".data cs then .ok (prevDay startingDate)
    else str2date cs startingDate

/-- The computation `_next_monthday` was evidently meant to perform (its
docstring: the same ordinal occurrence of the starting date's weekday,
`months` months later): its source body with the leftover `self`
parameter removed, so that `months` receives the integer value and
`starting_date` the reference date.  `starting_date -
relativedelta(day=1, weekday=w(1))` is the first occurrence of the
weekday in the month (negating a relativedelta keeps its absolute
fields), `(starting_date - first).days // 7 + 1` its ordinal, and the
final delta is `relativedelta(months=months, day=1, weekday=w(ordinal))`
normalised by the constructor. -/
def next_monthday_intended (months : Nat) (startingDate : DateTime) : DateTime :=
  let w := weekdayOf startingDate
  let firstMonthWeekday := applyRel { dayAbs := some 1, weekdayAbs := some (w, 1) } startingDate
  let monthWeekday := (toOrdinal startingDate - toOrdinal firstMonthWeekday) / 7 + 1
  applyRel (fixDelta { months := months, dayAbs := some 1, weekdayAbs := some (w, monthWeekday) }) startingDate

/-- Field list used for comparisons: Python compares datetimes by their
time value, equivalently lexicographically by
(year, month, day, hour, minute, second). -/
def DateTime.fieldList (d : DateTime) : List Nat :=
  [d.year, d.month, d.day, d.hour, d.minute, d.second]

/-- Lexicographic strict order on equal-length lists of naturals. -/
def natListLt : List Nat → List Nat → Bool
  | a :: as, b :: bs => Nat.blt a b || (a == b && natListLt as bs)
  | _, _ => false

/-- Python `datetime <` (strict). -/
def dtLt (a b : DateTime) : Bool := natListLt a.fieldList b.fieldList

/-- Python `datetime <=`. -/
def dtLe (a b : DateTime) : Bool := dtLt a b || a == b

/-- Embedding of the attribute state of a pydo `Task`/`RecurrentTask`
object (`pydo/model/__init__.py` `Entity.__init__` plus
`pydo/model/task.py` `Task.__init__`/`RecurrentTask.__init__`).  The
`parent` weak reference is represented by the id of the referenced task
(`none` when unset: `Task.__init__` sets `self.parent = None` and the
repository populates it later).  A plain `Task` has no
`_recurrence`/`_recurrence_type` entries in its `__dict__`; `none` in the
two corresponding fields represents that absence. -/
structure TaskCore where
  id : String
  description : Option String := none
  state : String := "open"
  closed : Option DateTime := none
  created : Option DateTime := none
  agile : Option String := none
  body : Option String := none
  due : Option DateTime := none
  estimate : Option Int := none
  fun_ : Option Int := none
  parent : Option String := none
  parent_id : Option String := none
  priority : Option Int := none
  project_id : Option String := none
  tag_ids : Option (List String) := none
  type : String := "task"
  value : Option Int := none
  wait : Option DateTime := none
  willpower : Option Int := none
  recurrence : Option String := none
  recurrence_type : Option String := none
deriving DecidableEq, Repr

/-- A task object together with its `children` collection (populated by
the repositories; `Task.__init__` initialises it to `[]`).  The spawned
children are always plain tasks, so one level of nesting suffices for
every operation of the core. -/
structure TaskObj where
  core : TaskCore
  children : List TaskCore
deriving DecidableEq, Repr

/-- A `Task` as constructed by `Task(id)` with every optional argument
left at its default: state `open`, `closed` `None`, `created` set to the
construction time by the `created` property setter. -/
def task_default (id : String) (now : DateTime) : TaskCore :=
  { id := id, created := some now }

/-- Embedding of `Entity.close(state, close_date)`
(`pydo/model/__init__.py`): set `closed` to the close date and `state` to
the given state.  No other attribute is read or written, and no
validation of `state` is performed. -/
def entity_close (t : TaskCore) (state : String) (closeDate : DateTime) : TaskCore :=
  { t with closed := some closeDate, state := state }

/-- `Entity.close` invoked on a task object: only the object's own
attributes are assigned; the `children` collection is not touched
(`Task` and `RecurrentTask` do not override `close`). -/
def entity_close_obj (t : TaskObj) (state : String) (closeDate : DateTime) : TaskObj :=
  { t with core := entity_close t.core state closeDate }

/-- Python `max(children)` for tasks: `Task.__gt__` delegates to
`Entity.__gt__`, which compares ids, so `max` returns the first child
whose id is not exceeded by any later child's id. -/
def py_max (c : TaskCore) (cs : List TaskCore) : TaskCore :=
  cs.foldl (fun m x => if m.id < x.id then x else m) c

/-- The `ValueError` message of `_next_recurring_due` and
`_next_repeating_due` when `recurrence` is `None`.  The source literal is
not an f-string, so `{self.id}` appears literally. -/
def noRecurrenceMsg : String :=
  "The recurrence of the task \x7bself.id\x7d is None, so it can\x27t breed children"

/-- The `TaskAttributeError` message of `_next_repeating_due` when the
parent has no children and no due date (this one is an f-string and
interpolates the task id). -/
def noDueMsg (id : String) : String :=
  "The task " ++ id ++ " doesn\x27t have a due date, so it can\x27t breed children"

/-- Message of the `TypeError` raised when `convert_date` is applied with
`starting_date = None` (Python fails inside the date arithmetic when the
reference is `None`). -/
def noneReferenceMsg : String := "unsupported operand type(s): \x27NoneType\x27"

/-- Embedding of `_next_repeating_due` (`pydo/model/task.py`): fail with
`ValueError` if `recurrence` is `None`; with no children return the
parent's own due date (failing with `TaskAttributeError` if it is
`None`); otherwise apply `convert_date` once to the recurrence with the
closed timestamp of `max(children)` as reference.  The ambient time is
never consulted.  If that highest child is not closed, Python would pass
`None` as the reference and crash; the embedding returns the
corresponding `TypeError`. -/
def next_repeating_due (t : TaskObj) : Except PyErr DateTime :=
  match t.core.recurrence with
  | none => .error (.valueError noRecurrenceMsg)
  | some rec =>
    match t.children with
    | [] =>
      match t.core.due with
      | none => .error (.taskAttributeError (noDueMsg t.core.id))
      | some due => .ok due
    | c :: cs =>
      match (py_max c cs).closed with
      | none => .error (.typeError noneReferenceMsg)
      | some reference => convert_date rec reference

/-- The `while True` loop of `_next_recurring_due`, with explicit fuel:
starting from `lastDue`, repeatedly apply `convert_date` to the
recurrence until the result is strictly after `now`; `.ok none` means the
loop has not returned within `fuel` iterations. -/
def next_recurring_loop (rec : String) (now : DateTime) : Nat → DateTime → Except PyErr (Option DateTime)
  | 0, _ => .ok none
  | fuel + 1, lastDue =>
    match convert_date rec lastDue with
    | .error e => .error e
    | .ok nextDue =>
      if dtLt now nextDue then .ok (some nextDue) else next_recurring_loop rec now fuel nextDue

/-- Iterated application of `convert_date` to the recurrence: the
sequence of working dates of the `_next_recurring_due` loop
(`recurIterFrom rec k d` is the `k`-th iterate starting from `d`). -/
def recurIterFrom (rec : String) : Nat → DateTime → Except PyErr DateTime
  | 0, d => .ok d
  | k + 1, d =>
    match convert_date rec d with
    | .error e => .error e
    | .ok d2 => recurIterFrom rec k d2

/-- True when the next `k` iterates of `convert_date` applied to the
recurrence from `d` all exist and none of them is strictly after `now`. -/
def iterStaysBelow (rec : String) (now : DateTime) : Nat → DateTime → Bool
  | 0, _ => true
  | k + 1, d =>
    match convert_date rec d with
    | .error _ => false
    | .ok d2 => !dtLt now d2 && iterStaysBelow rec now k d2

/-- Embedding of `_next_recurring_due` (`pydo/model/task.py`): fail with
`ValueError` if `recurrence` is `None`, then run the loop starting from
the parent's due date (`now` is the ambient `datetime.now()` of the
call, `fuel` bounds this embedding of the unbounded source loop).  If
`due` is `None`, the first `convert_date` application receives `None`
and Python crashes with a `TypeError`. -/
def next_recurring_due (t : TaskObj) (now : DateTime) (fuel : Nat) : Except PyErr (Option DateTime) :=
  match t.core.recurrence with
  | none => .error (.valueError noRecurrenceMsg)
  | some rec =>
    match t.core.due with
    | none => .error (.typeError noneReferenceMsg)
    | some due => next_recurring_loop rec now fuel due

/-- The dictionary produced by `_generate_children_attributes`
(`pydo/model/task.py`): a snapshot of the parent's `__dict__` in which
`parent_id` is overwritten with the parent's id and `type` with
`"task"`, the property slots `_agile`/`_closed` are renamed to their
public names, and `_created`, `id`, `_recurrence_type`, `_recurrence`,
`children` and `parent` are removed.  Exactly the fields below remain. -/
structure ChildAttributes where
  description : Option String
  state : String
  agile : Option String
  body : Option String
  closed : Option DateTime
  due : Option DateTime
  estimate : Option Int
  fun_ : Option Int
  parent_id : Option String
  priority : Option Int
  project_id : Option String
  tag_ids : Option (List String)
  type : String
  value : Option Int
  wait : Option DateTime
  willpower : Option Int
deriving DecidableEq, Repr

/-- Embedding of `_generate_children_attributes` applied to the parent's
attribute state. -/
def generate_children_attributes (t : TaskCore) : ChildAttributes :=
  { description := t.description, state := t.state, agile := t.agile, body := t.body,
    closed := t.closed, due := t.due, estimate := t.estimate, fun_ := t.fun_,
    parent_id := some t.id, priority := t.priority, project_id := t.project_id,
    tag_ids := t.tag_ids, type := "task", value := t.value, wait := t.wait,
    willpower := t.willpower }

/-- The `Task(children_id, **child_attributes)` construction performed by
`breed_children`: a fresh task with the given id and the filtered and
augmented attributes; `children` is initialised to `[]`, `parent` to
`None`, `created` to the construction time, and the task has no
recurrence attributes. -/
def task_from_attributes (id : String) (a : ChildAttributes) (dueVal : Option DateTime)
    (now : DateTime) : TaskCore :=
  { id := id, description := a.description, state := a.state, closed := a.closed,
    created := some now, agile := a.agile, body := a.body, due := dueVal,
    estimate := a.estimate, fun_ := a.fun_, parent := none, parent_id := a.parent_id,
    priority := a.priority, project_id := a.project_id, tag_ids := a.tag_ids,
    type := a.type, value := a.value, wait := a.wait, willpower := a.willpower,
    recurrence := none, recurrence_type := none }

/-- Embedding of `RecurrentTask.breed_children(children_id)`
(`pydo/model/task.py`): generate the child attributes, compute the
child's due date with the policy selected by `recurrence_type` (the due
date in the attribute snapshot is kept unchanged if `recurrence_type` is
neither value, which the setter normally prevents), construct the child
task, and append it to the parent's `children` list.  The child's
`parent` attribute is not assigned.  Returns the updated parent and the
new child; `.ok none` propagates fuel exhaustion of the recurring
loop. -/
def breed_children (p : TaskObj) (childrenId : String) (now : DateTime) (fuel : Nat) :
    Except PyErr (Option (TaskObj × TaskObj)) :=
  let attrs := generate_children_attributes p.core
  let dueE : Except PyErr (Option (Option DateTime)) :=
    if p.core.recurrence_type = some "recurring" then
      match next_recurring_due p now fuel with
      | .error e => .error e
      | .ok none => .ok none
      | .ok (some d) => .ok (some (some d))
    else if p.core.recurrence_type = some "repeating" then
      match next_repeating_due p with
      | .error e => .error e
      | .ok d => .ok (some (some d))
    else .ok (some attrs.due)
  match dueE with
  | .error e => .error e
  | .ok none => .ok none
  | .ok (some dueVal) =>
    let child := task_from_attributes childrenId attrs dueVal now
    .ok (some ({ p with children := p.children ++ [child] }, { core := child, children := [] }))

/-- In-memory effect of `services._close_task` when the closed task is a
parent (first branch, `task.type == "recurrent_task"`, or a plain task
with no parent): the task itself is closed, and when it is a recurrent
parent every entry of its `children` collection is closed with the same
state and close date. -/
def close_task_parent (p : TaskObj) (state : String) (closeDate : DateTime) : TaskObj :=
  let p1 : TaskObj := { p with core := entity_close p.core state closeDate }
  if p1.core.type = "recurrent_task" then
    { p1 with children := p1.children.map (fun c => entity_close c state closeDate) }
  else p1

/-- In-memory effect of `services._close_task` when the closed task is a
child of a recurrent parent, viewed from the parent object (in Python
the child being closed is the same object stored in `parent.children`):
the child is closed with the given state and close date, and then —
unconditionally in the `elif isinstance(task.parent, RecurrentTask)`
branch, unless `delete_parent` was requested — `breed_children` spawns
the next child.  No condition on the child's previous state, on the
closing state, or on the parent's own state is checked. -/
def close_task_child (p : TaskObj) (childId : String) (state : String) (closeDate : DateTime)
    (newId : String) (now : DateTime) (fuel : Nat) (deleteParent : Bool) :
    Except PyErr (Option TaskObj) :=
  let cl := p.children.map (fun c => if c.id = childId then entity_close c state closeDate else c)
  let p1 : TaskObj := { p with children := cl }
  if deleteParent then .ok (some { p1 with core := entity_close p1.core state closeDate })
  else if p1.core.type = "recurrent_task" then
    match breed_children p1 newId now fuel with
    | .error e => .error e
    | .ok none => .ok none
    | .ok (some (p2, _child)) => .ok (some p2)
  else .ok (some p1)

/-- The invariant claimed in the specification for every entity:
`closed` is non-null iff `state` is `completed` or `deleted`. -/
def closedStateInvariant (t : TaskCore) : Prop :=
  (t.closed ≠ none) ↔ (t.state = "completed" ∨ t.state = "deleted")

/-- Range constraints satisfied by every value representing a real Python
`datetime`. -/
def DateTime.WellFormed (d : DateTime) : Prop :=
  1 ≤ d.year ∧ 1 ≤ d.month ∧ d.month ≤ 12 ∧ 1 ≤ d.day ∧
  d.day ≤ daysInMonth d.year d.month ∧ d.hour ≤ 23 ∧ d.minute ≤ 59 ∧ d.second ≤ 59

instance (d : DateTime) : Decidable d.WellFormed := by
  unfold DateTime.WellFormed
  infer_instance

deriving instance DecidableEq for Except

/-- Single-number measure of a datetime: its ordinal day count in seconds
plus the seconds of the day.  For well-formed datetimes it orders exactly
like `dtLt`. -/
def dtKey (d : DateTime) : Nat := toOrdinal d * 86400 + secondsOfDay d

/-- The weekday number selected by the `_convert_weekday` regex chain, as
a function of the input string alone. -/
def weekday_of (cs : List Char) : Option Nat :=
  if List.isPrefixOf "mon".data cs then some 0
  else if List.isPrefixOf "tue".data cs then some 1
  else if List.isPrefixOf "wed".data cs then some 2
  else if List.isPrefixOf "thu".data cs then some 3
  else if List.isPrefixOf "fri".data cs then some 4
  else if List.isPrefixOf "sat".data cs then some 5
  else if List.isPrefixOf "sun".data cs then some 6
  else none

/-- Recurrent parent with one open child, used for the C6 analysis. -/
def c6_parent : TaskObj :=
  { core := { id := "p6", type := "recurrent_task", due := some ⟨2020, 8, 2, 0, 0, 0⟩,
              recurrence := some "1mo", recurrence_type := some "recurring" },
    children := [{ id := "c6-child-a" }, { id := "c6-child-b" }] }

/-- Frozen recurrent parent with one open child, used for the C7
analysis. -/
def c7_parent : TaskObj :=
  { core := { id := "p7", state := "frozen", type := "recurrent_task",
              due := some ⟨2020, 8, 2, 0, 0, 0⟩, recurrence := some "1mo",
              recurrence_type := some "recurring" },
    children := [{ id := "c7-child-a" }] }

/-- Childless recurrent parent with inheritable attributes set, used for
the C8 analysis. -/
def c8_parent : TaskObj :=
  { core := { id := "p8", type := "recurrent_task", state := "open",
              due := some ⟨2020, 8, 2, 0, 0, 0⟩, recurrence := some "1mo",
              recurrence_type := some "recurring", agile := some "todo",
              body := some "parent body", project_id := some "proj",
              tag_ids := some ["tag1"], priority := some 3,
              created := some ⟨2020, 8, 1, 0, 0, 0⟩ },
    children := [] }

/-- The `parent` attribute of the child spawned from `c8_parent`, when the
spawn succeeds (`none` in the outer option when it does not). -/
def c8_child_parent_attr : Option (Option String) :=
  match breed_children c8_parent "p8-child" ⟨2020, 8, 2, 0, 0, 0⟩ 5 with
  | .ok (some (_, c2)) => some c2.core.parent
  | _ => none

/-- The attribute state of the child spawned from `c8_parent` at
2020-08-02 (its computed due date is 2020-09-02). -/
def c8_expected_child : TaskCore :=
  task_from_attributes "p8-child" (generate_children_attributes c8_parent.core)
    (some ⟨2020, 9, 2, 0, 0, 0⟩) ⟨2020, 8, 2, 0, 0, 0⟩

/-- The recurring parent of the concrete C1 scenario: recurrence `1mo`,
due 1800-08-02. -/
def c1_parent : TaskObj :=
  { core := { id := "p1", type := "recurrent_task", due := some ⟨1800, 8, 2, 0, 0, 0⟩,
              recurrence := some "1mo", recurrence_type := some "recurring" },
    children := [] }

theorem DateTime.eq_iff (a b : DateTime) :
    a = b ↔ (a.year = b.year ∧ a.month = b.month ∧ a.day = b.day ∧
      a.hour = b.hour ∧ a.minute = b.minute ∧ a.second = b.second) := by
  cases a
  cases b
  simp

theorem dtLt_iff (a b : DateTime) : dtLt a b = true ↔
    (a.year < b.year ∨ (a.year = b.year ∧ (a.month < b.month ∨ (a.month = b.month ∧
     (a.day < b.day ∨ (a.day = b.day ∧ (a.hour < b.hour ∨ (a.hour = b.hour ∧
     (a.minute < b.minute ∨ (a.minute = b.minute ∧ a.second < b.second)))))))))) := by
  simp [dtLt, natListLt, DateTime.fieldList, Nat.blt_eq]

theorem dtLe_iff (a b : DateTime) : dtLe a b = true ↔ (dtLt a b = true ∨ a = b) := by
  simp [dtLe]

theorem dtLt_bool_iff (a b : DateTime) : dtLt a b = false ↔ ¬ dtLt a b = true := by
  simp

theorem daysInMonth_bounds (y m : Nat) (h1 : 1 ≤ m) (h2 : m ≤ 12) :
    28 ≤ daysInMonth y m ∧ daysInMonth y m ≤ 31 := by
  interval_cases m <;> simp only [daysInMonth] <;> (try split) <;> omega

theorem daysBeforeMonth_succ (y m : Nat) (h1 : 1 ≤ m) (h2 : m ≤ 11) :
    daysBeforeMonth y (m + 1) = daysBeforeMonth y m + daysInMonth y m := by
  interval_cases m <;> cases h : isLeap y <;> simp [daysBeforeMonth, daysInMonth, h]

theorem daysBeforeMonth_12_add (y : Nat) :
    daysBeforeMonth y 12 + daysInMonth y 12 = daysInYear y := by
  cases h : isLeap y <;> simp [daysBeforeMonth, daysInMonth, daysInYear, h]

theorem daysBeforeMonth_mono (y : Nat) : ∀ a b : Nat, 1 ≤ a → a ≤ b → b ≤ 12 →
    daysBeforeMonth y a ≤ daysBeforeMonth y b := by
  intro a b h1 hab h12
  induction b with
  | zero => omega
  | succ n ih =>
    rcases Nat.lt_or_ge a (n + 1) with h | h
    · have hstep := daysBeforeMonth_succ y n (by omega) (by omega)
      have := ih (by omega) (by omega)
      omega
    · have : a = n + 1 := by omega
      subst this
      exact Nat.le_refl _

theorem isLeap_iff (y : Nat) : isLeap y = true ↔ (y % 4 = 0 ∧ (¬ y % 100 = 0 ∨ y % 400 = 0)) := by
  simp [isLeap]

theorem daysBeforeYear_succ (y : Nat) (hy : 1 ≤ y) :
    daysBeforeYear (y + 1) = daysBeforeYear y + daysInYear y := by
  obtain ⟨k, rfl⟩ : ∃ k, y = k + 1 := ⟨y - 1, by omega⟩
  have h4 := Nat.succ_div k 4
  have h100 := Nat.succ_div k 100
  have h400 := Nat.succ_div k 400
  have hleap := isLeap_iff (k + 1)
  unfold daysBeforeYear daysInYear
  simp only [Nat.add_sub_cancel]
  rcases Bool.eq_false_or_eq_true (isLeap (k + 1)) with hb | hb <;>
    rw [hb] at hleap ⊢ <;>
    split_ifs at h4 h100 h400 <;> simp at hleap ⊢ <;> omega

theorem daysBeforeYear_mono (a b : Nat) (hab : a ≤ b) :
    daysBeforeYear a ≤ daysBeforeYear b := by
  have h4 : (a - 1) / 4 ≤ (b - 1) / 4 := Nat.div_le_div_right (by omega)
  have h100 : (a - 1) / 100 ≤ (b - 1) / 100 := Nat.div_le_div_right (by omega)
  have h400 : (a - 1) / 400 ≤ (b - 1) / 400 := Nat.div_le_div_right (by omega)
  unfold daysBeforeYear
  omega

theorem toOrdinal_bounds (d : DateTime) (h : d.WellFormed) :
    daysBeforeYear d.year < toOrdinal d ∧ toOrdinal d ≤ daysBeforeYear (d.year + 1) := by
  obtain ⟨hy, hm1, hm2, hd1, hd2, _, _, _⟩ := h
  constructor
  · unfold toOrdinal
    omega
  · have hdy := daysBeforeYear_succ d.year hy
    have h12 := daysBeforeMonth_12_add d.year
    rcases Nat.lt_or_ge d.month 12 with hlt | hge
    · have hs := daysBeforeMonth_succ d.year d.month hm1 (by omega)
      have hmono := daysBeforeMonth_mono d.year (d.month + 1) 12 (by omega) (by omega) (by omega)
      have hbd := daysInMonth_bounds d.year 12 (by omega) (by omega)
      unfold toOrdinal
      omega
    · have hm12 : d.month = 12 := by omega
      unfold toOrdinal
      rw [hm12] at hd2 ⊢
      omega

theorem nextDay_wf (d : DateTime) (h : d.WellFormed) : (nextDay d).WellFormed := by
  obtain ⟨hy, hm1, hm2, hd1, hd2, hh, hmi, hs⟩ := h
  unfold nextDay DateTime.WellFormed
  split
  · dsimp only
    omega
  · split
    · have hb := daysInMonth_bounds d.year (d.month + 1) (by omega) (by omega)
      dsimp only
      omega
    · have hb := daysInMonth_bounds (d.year + 1) 1 (by omega) (by omega)
      dsimp only
      omega

theorem daysBeforeMonth_one (y : Nat) : daysBeforeMonth y 1 = 0 := rfl

theorem toOrdinal_nextDay (d : DateTime) (h : d.WellFormed) :
    toOrdinal (nextDay d) = toOrdinal d + 1 := by
  obtain ⟨hy, hm1, hm2, hd1, hd2, _, _, _⟩ := h
  unfold nextDay toOrdinal
  split
  · dsimp only
    omega
  · split
    · have hs := daysBeforeMonth_succ d.year d.month hm1 (by omega)
      dsimp only
      omega
    · rename_i hnlt hnm
      have hm12 : d.month = 12 := by omega
      have ha := daysBeforeMonth_12_add d.year
      have hb := daysBeforeYear_succ d.year hy
      have hdim : daysInMonth d.year 12 = 31 := rfl
      have h1 := daysBeforeMonth_one (d.year + 1)
      have hday : d.day = 31 := by rw [hm12] at hd2 hnlt; omega
      unfold daysInYear at ha hb
      dsimp only
      rw [hm12, hday, h1]
      omega

theorem nextDay_time (d : DateTime) :
    (nextDay d).hour = d.hour ∧ (nextDay d).minute = d.minute ∧ (nextDay d).second = d.second := by
  unfold nextDay
  split
  · exact ⟨rfl, rfl, rfl⟩
  · split
    · exact ⟨rfl, rfl, rfl⟩
    · exact ⟨rfl, rfl, rfl⟩

theorem addDaysNat_wf (d : DateTime) (h : d.WellFormed) (k : Nat) :
    (addDaysNat d k).WellFormed := by
  induction k with
  | zero => exact h
  | succ n ih => exact nextDay_wf _ ih

theorem toOrdinal_addDaysNat (d : DateTime) (h : d.WellFormed) (k : Nat) :
    toOrdinal (addDaysNat d k) = toOrdinal d + k := by
  induction k with
  | zero => rfl
  | succ n ih =>
    have := toOrdinal_nextDay (addDaysNat d n) (addDaysNat_wf d h n)
    simp only [addDaysNat]
    omega

theorem addDaysNat_time (d : DateTime) (k : Nat) :
    (addDaysNat d k).hour = d.hour ∧ (addDaysNat d k).minute = d.minute ∧
      (addDaysNat d k).second = d.second := by
  induction k with
  | zero => exact ⟨rfl, rfl, rfl⟩
  | succ n ih =>
    have := nextDay_time (addDaysNat d n)
    simp only [addDaysNat]
    omega

theorem weekdayOf_lt (d : DateTime) : weekdayOf d < 7 := by
  unfold weekdayOf
  omega

theorem weekdayOf_addDaysNat (d : DateTime) (h : d.WellFormed) (k : Nat) :
    weekdayOf (addDaysNat d k) = (weekdayOf d + k) % 7 := by
  unfold weekdayOf
  rw [toOrdinal_addDaysNat d h k]
  omega

theorem addDaysNat_succ_left (d : DateTime) (k : Nat) :
    addDaysNat (nextDay d) k = addDaysNat d (k + 1) := by
  induction k with
  | zero => rfl
  | succ n ih =>
    show nextDay (addDaysNat (nextDay d) n) = nextDay (addDaysNat d (n + 1))
    rw [ih]

theorem secondsOfDay_lt (d : DateTime) (h : d.WellFormed) : secondsOfDay d < 86400 := by
  obtain ⟨_, _, _, _, _, hh, hmi, hs⟩ := h
  unfold secondsOfDay
  omega

theorem toOrdinal_lt_of_date_lt (a b : DateTime) (ha : a.WellFormed) (hb : b.WellFormed)
    (h : a.year < b.year ∨ (a.year = b.year ∧ (a.month < b.month ∨
      (a.month = b.month ∧ a.day < b.day)))) :
    toOrdinal a < toOrdinal b := by
  obtain ⟨hay, ham1, ham2, had1, had2, _, _, _⟩ := ha
  obtain ⟨hby, hbm1, hbm2, hbd1, hbd2, _, _, _⟩ := hb
  rcases h with hy | ⟨hy, hm | ⟨hm, hd⟩⟩
  · have h1 := (toOrdinal_bounds a ⟨hay, ham1, ham2, had1, had2, by omega, by omega, by omega⟩).2
    have h2 := (toOrdinal_bounds b ⟨hby, hbm1, hbm2, hbd1, hbd2, by omega, by omega, by omega⟩).1
    have h3 := daysBeforeYear_mono (a.year + 1) b.year (by omega)
    omega
  · have hsucc := daysBeforeMonth_succ a.year a.month ham1 (by omega)
    have hmono := daysBeforeMonth_mono a.year (a.month + 1) b.month (by omega) (by omega) (by omega)
    unfold toOrdinal
    rw [← hy]
    omega
  · unfold toOrdinal
    rw [← hy, ← hm]
    omega

theorem dtKey_lt_of_dtLt (a b : DateTime) (ha : a.WellFormed) (hb : b.WellFormed)
    (h : dtLt a b = true) : dtKey a < dtKey b := by
  rw [dtLt_iff] at h
  have hsa := secondsOfDay_lt a ha
  have hsb := secondsOfDay_lt b hb
  unfold dtKey
  rcases h with hy | ⟨hy, hm | ⟨hm, hd | ⟨hd, hrest⟩⟩⟩
  · have := toOrdinal_lt_of_date_lt a b ha hb (Or.inl hy)
    omega
  · have := toOrdinal_lt_of_date_lt a b ha hb (Or.inr ⟨hy, Or.inl hm⟩)
    omega
  · have := toOrdinal_lt_of_date_lt a b ha hb (Or.inr ⟨hy, Or.inr ⟨hm, hd⟩⟩)
    omega
  · have hord : toOrdinal a = toOrdinal b := by
      unfold toOrdinal
      rw [hy, hm, hd]
    have hsod : secondsOfDay a < secondsOfDay b := by
      obtain ⟨_, _, _, _, _, _, hami, has⟩ := ha
      obtain ⟨_, _, _, _, _, _, hbmi, hbs⟩ := hb
      unfold secondsOfDay
      omega
    omega

theorem dtLt_false_elim (a b : DateTime) (h1 : dtLt a b = false) (h2 : dtLt b a = false) :
    a = b := by
  rw [dtLt_bool_iff, dtLt_iff] at h1 h2
  rw [DateTime.eq_iff]
  omega

theorem dtLt_iff_dtKey (a b : DateTime) (ha : a.WellFormed) (hb : b.WellFormed) :
    dtLt a b = true ↔ dtKey a < dtKey b := by
  constructor
  · exact dtKey_lt_of_dtLt a b ha hb
  · intro hk
    cases hab : dtLt a b
    · cases hba : dtLt b a
      · have he := dtLt_false_elim a b hab hba
        subst he
        omega
      · have := dtKey_lt_of_dtLt b a hb ha hba
        omega
    · rfl

theorem dtLt_trans (a b c : DateTime) (h1 : dtLt a b = true) (h2 : dtLt b c = true) :
    dtLt a c = true := by
  rw [dtLt_iff] at h1 h2 ⊢
  omega

theorem dtLt_false_of_dtLe (a b c : DateTime) (hab : dtLe a b = true)
    (hcb : dtLt c b = false) : dtLt c a = false := by
  rw [dtLe_iff] at hab
  rcases hab with hlt | heq
  · cases hca : dtLt c a
    · rfl
    · have := dtLt_trans c a b hca hlt
      rw [this] at hcb
      exact absurd hcb (by simp)
  · subst heq
    exact hcb

theorem addClockSeconds_86400 (d : DateTime) (h : d.WellFormed) :
    addClockSeconds d 86400 = nextDay d := by
  have hsod := secondsOfDay_lt d h
  obtain ⟨hy, hm1, hm2, hd1, hd2, hh, hmi, hs⟩ := h
  unfold addClockSeconds
  rw [if_neg (by omega : ¬ (86400 : Nat) = 0)]
  dsimp only
  have h1 : (secondsOfDay d + 86400) / 86400 = 1 := by omega
  have h2 : (secondsOfDay d + 86400) % 86400 = secondsOfDay d := by omega
  rw [h1, h2]
  have e1 : addDaysNat d 1 = nextDay d := rfl
  rw [e1, DateTime.eq_iff]
  have ht := nextDay_time d
  unfold secondsOfDay
  refine ⟨rfl, rfl, rfl, ?_, ?_, ?_⟩ <;> dsimp only <;> omega

theorem applyRel_days_one (d : DateTime) (h : d.WellFormed) :
    applyRel { days := 1 } d = nextDay d := by
  have h2 := h
  obtain ⟨hy, hm1, hm2, hd1, hd2, hh, hmi, hs⟩ := h
  unfold applyRel
  dsimp only
  split
  · omega
  · simp only [Nat.add_zero]
    rw [Nat.min_eq_right hd2]
    show addClockSeconds d 86400 = nextDay d
    exact addClockSeconds_86400 d h2

theorem applyRel_weekday_jump (w n : Nat) (d : DateTime) (h : d.WellFormed) :
    applyRel { dayAbs := some d.day, weekdayAbs := some (w, n) } d =
      addDaysNat d ((n - 1) * 7 + (7 - weekdayOf d + w) % 7) := by
  obtain ⟨hy, hm1, hm2, hd1, hd2, hh, hmi, hs⟩ := h
  unfold applyRel
  dsimp only
  split
  · omega
  · simp only [Nat.add_zero]
    rw [Nat.min_eq_right hd2]
    rfl

theorem next_weekday_eq (w : Nat) (d : DateTime) (h : d.WellFormed) :
    next_weekday w d =
      (if weekdayOf d = w then addDaysNat (nextDay d) ((7 - weekdayOf (nextDay d) + w) % 7)
       else addDaysNat d ((7 - weekdayOf d + w) % 7)) := by
  unfold next_weekday
  by_cases hc : weekdayOf d = w
  · rw [if_pos hc, if_pos hc, applyRel_days_one d h,
      applyRel_weekday_jump w 1 (nextDay d) (nextDay_wf d h)]
    simp
  · rw [if_neg hc, if_neg hc, applyRel_weekday_jump w 1 d h]
    simp

theorem applyRel_one_month_eq (d : DateTime) :
    applyRel { months := 1 } d =
      (if 12 < d.month + 1 then
        { d with year := d.year + 1, month := d.month + 1 - 12, day := min (daysInMonth (d.year + 1) (d.month + 1 - 12)) d.day }
       else
        { d with month := d.month + 1, day := min (daysInMonth d.year (d.month + 1)) d.day }) := by
  unfold applyRel
  dsimp only
  split
  · rfl
  · rfl

theorem applyRel_one_month_advances (d : DateTime) (h : d.WellFormed) :
    dtLt d (applyRel { months := 1 } d) = true ∧ (applyRel { months := 1 } d).WellFormed := by
  obtain ⟨hy, hm1, hm2, hd1, hd2, hh, hmi, hs⟩ := h
  rw [applyRel_one_month_eq]
  split
  · rename_i hgt
    have hb := daysInMonth_bounds (d.year + 1) (d.month + 1 - 12) (by omega) (by omega)
    constructor
    · rw [dtLt_iff]
      dsimp only
      omega
    · unfold DateTime.WellFormed
      dsimp only
      omega
  · rename_i hle
    have hb := daysInMonth_bounds d.year (d.month + 1) (by omega) (by omega)
    constructor
    · rw [dtLt_iff]
      dsimp only
      omega
    · unfold DateTime.WellFormed
      dsimp only
      omega

theorem recurIterFrom_succ (rec : String) (k : Nat) (due nd : DateTime)
    (h : convert_date rec due = .ok nd) :
    recurIterFrom rec (k + 1) due = recurIterFrom rec k nd := by
  simp only [recurIterFrom, h]

theorem loop_eq_after (rec : String) (now : DateTime) :
    ∀ (k f : Nat) (d d2 : DateTime),
      iterStaysBelow rec now k d = true →
      recurIterFrom rec k d = .ok d2 →
      next_recurring_loop rec now (k + f) d = next_recurring_loop rec now f d2 := by
  intro k
  induction k with
  | zero =>
    intro f d d2 _ hiter
    simp only [recurIterFrom] at hiter
    cases hiter
    simp
  | succ k ih =>
    intro f d d2 hbelow hiter
    simp only [iterStaysBelow] at hbelow
    simp only [recurIterFrom] at hiter
    cases hconv : convert_date rec d with
    | error e =>
      rw [hconv] at hbelow
      exact absurd hbelow (by simp)
    | ok d1 =>
      rw [hconv] at hbelow hiter
      simp only [Bool.and_eq_true, Bool.not_eq_true'] at hbelow
      have harith : k + 1 + f = (k + f) + 1 := by omega
      rw [harith]
      simp only [next_recurring_loop, hconv, hbelow.1]
      exact ih f d1 d2 hbelow.2 hiter

theorem loop_returns_first (rec : String) (now : DateTime) :
    ∀ (fuel : Nat) (due r : DateTime),
      next_recurring_loop rec now fuel due = .ok (some r) →
      dtLt now r = true ∧
      ∃ i, 1 ≤ i ∧ recurIterFrom rec i due = .ok r ∧
        ∀ j, 1 ≤ j → j < i →
          ∃ dj, recurIterFrom rec j due = .ok dj ∧ dtLt now dj = false := by
  intro fuel
  induction fuel with
  | zero =>
    intro due r h
    simp [next_recurring_loop] at h
  | succ fuel ih =>
    intro due r h
    simp only [next_recurring_loop] at h
    cases hconv : convert_date rec due with
    | error e =>
      rw [hconv] at h
      simp at h
    | ok nd =>
      rw [hconv] at h
      dsimp only at h
      by_cases hlt : dtLt now nd = true
      · rw [if_pos hlt] at h
        simp at h
        subst h
        refine ⟨hlt, 1, le_refl 1, ?_, ?_⟩
        · rw [recurIterFrom_succ rec 0 due nd hconv]
          rfl
        · intro j hj1 hj2
          omega
      · rw [if_neg hlt] at h
        obtain ⟨hlt2, i, hi1, hiter, hprev⟩ := ih nd r h
        refine ⟨hlt2, i + 1, by omega, ?_, ?_⟩
        · rw [recurIterFrom_succ rec i due nd hconv]
          exact hiter
        · intro j hj1 hj2
          match j, hj1 with
          | 1, _ =>
            refine ⟨nd, ?_, by simpa using hlt⟩
            rw [recurIterFrom_succ rec 0 due nd hconv]
            rfl
          | (j' + 2), _ =>
            obtain ⟨dj, hdj, hdjlt⟩ := hprev (j' + 1) (by omega) (by omega)
            refine ⟨dj, ?_, hdjlt⟩
            rw [recurIterFrom_succ rec (j' + 1) due nd hconv]
            exact hdj

theorem recurIterFrom_snoc (rec : String) : ∀ (n : Nat) (due d d2 : DateTime),
    recurIterFrom rec n due = .ok d → convert_date rec d = .ok d2 →
    recurIterFrom rec (n + 1) due = .ok d2 := by
  intro n
  induction n with
  | zero =>
    intro due d d2 h1 h2
    simp only [recurIterFrom] at h1
    cases h1
    simp only [recurIterFrom, h2]
  | succ n ih =>
    intro due d d2 h1 h2
    simp only [recurIterFrom] at h1 ⊢
    cases hc : convert_date rec due with
    | error e =>
      rw [hc] at h1
      simp at h1
    | ok dm =>
      rw [hc] at h1
      dsimp only at h1 ⊢
      have := ih dm d d2 h1 h2
      simp only [recurIterFrom] at this
      exact this

theorem loop_terminates (rec : String) (now due : DateTime)
    (hnow : now.WellFormed) (hdue : due.WellFormed)
    (hadv : ∀ n d, recurIterFrom rec n due = .ok d →
      ∃ d2, convert_date rec d = .ok d2 ∧ dtLt d d2 = true ∧ d2.WellFormed) :
    ∃ fuel r, next_recurring_loop rec now fuel due = .ok (some r) := by
  have key : ∀ g n d, recurIterFrom rec n due = .ok d → d.WellFormed →
      dtKey now + 1 - dtKey d ≤ g →
      ∃ fuel r, next_recurring_loop rec now fuel d = .ok (some r) := by
    intro g
    induction g with
    | zero =>
      intro n d hit hwf hgap
      obtain ⟨d2, hconv, hlt, hwf2⟩ := hadv n d hit
      have hk := dtKey_lt_of_dtLt d d2 hwf hwf2 hlt
      have hnd : dtLt now d2 = true := by
        rw [dtLt_iff_dtKey now d2 hnow hwf2]
        omega
      refine ⟨1, d2, ?_⟩
      simp only [next_recurring_loop, hconv, hnd]
      rfl
    | succ g ih =>
      intro n d hit hwf hgap
      obtain ⟨d2, hconv, hlt, hwf2⟩ := hadv n d hit
      have hk := dtKey_lt_of_dtLt d d2 hwf hwf2 hlt
      by_cases hnd : dtLt now d2 = true
      · refine ⟨1, d2, ?_⟩
        simp only [next_recurring_loop, hconv, hnd]
        rfl
      · have hit2 : recurIterFrom rec (n + 1) due = .ok d2 := recurIterFrom_snoc rec n due d d2 hit hconv
        have hkey2 : dtKey d2 ≤ dtKey now := by
          by_contra hcon
          exact hnd ((dtLt_iff_dtKey now d2 hnow hwf2).2 (by omega))
        obtain ⟨fuel, r, hloop⟩ := ih (n + 1) d2 hit2 hwf2 (by omega)
        refine ⟨fuel + 1, r, ?_⟩
        simp only [next_recurring_loop, hconv]
        rw [if_neg (by simp [hnd])]
        exact hloop
  exact key (dtKey now + 1 - dtKey due) 0 due rfl hdue (le_refl _)

theorem loop_never_returns (rec : String) (now due : DateTime)
    (hstay : ∀ d, ∃ d2, convert_date rec d = .ok d2 ∧ dtLe d2 d = true)
    (hdue : dtLt now due = false) :
    ∀ fuel, next_recurring_loop rec now fuel due = .ok none := by
  intro fuel
  induction fuel generalizing due with
  | zero => rfl
  | succ fuel ih =>
    obtain ⟨d2, hconv, hle⟩ := hstay due
    have h2 : dtLt now d2 = false := dtLt_false_of_dtLe d2 due now hle hdue
    simp only [next_recurring_loop, hconv, h2]
    rw [if_neg (by simp)]
    exact ih d2 h2

theorem convert_weekday_eq (cs : List Char) (d : DateTime) :
    convert_weekday cs d = (weekday_of cs).map (fun w => next_weekday w d) := by
  unfold convert_weekday weekday_of
  split_ifs <;> rfl

theorem weekday_of_le (cs : List Char) (w : Nat) (h : weekday_of cs = some w) : w ≤ 6 := by
  unfold weekday_of at h
  split_ifs at h <;> simp at h <;> omega

theorem convert_date_weekday (s : String) (w : Nat) (d : DateTime)
    (h : weekday_of s.data = some w) : convert_date s d = .ok (next_weekday w d) := by
  unfold convert_date
  dsimp only
  rw [convert_weekday_eq, h]
  rfl

theorem convert_date_1mo (d : DateTime) :
    convert_date "1mo" d = .ok (applyRel { months := 1 } d) := rfl

theorem convert_date_now (d : DateTime) : convert_date "now" d = .ok d := rfl

theorem dtLe_refl (d : DateTime) : dtLe d d = true := by
  simp [dtLe]

theorem recurIterFrom_1mo_wf : ∀ (n : Nat) (due : DateTime), due.WellFormed →
    ∀ d, recurIterFrom "1mo" n due = .ok d → d.WellFormed := by
  intro n
  induction n with
  | zero =>
    intro due hdue d h
    simp only [recurIterFrom] at h
    cases h
    exact hdue
  | succ n ih =>
    intro due hdue d h
    simp only [recurIterFrom, convert_date_1mo] at h
    exact ih (applyRel { months := 1 } due) (applyRel_one_month_advances due hdue).2 d h

theorem next_weekday_props (w : Nat) (d : DateTime) (hw : w ≤ 6) (h : d.WellFormed) :
    dtLt d (next_weekday w d) = true ∧ (next_weekday w d).WellFormed ∧
    weekdayOf (next_weekday w d) = w ∧
    (weekdayOf d = w → next_weekday w d = addDaysNat d 7) := by
  rw [next_weekday_eq w d h]
  by_cases hc : weekdayOf d = w
  · rw [if_pos hc]
    have hwd := weekdayOf_lt d
    have hwdn : weekdayOf (nextDay d) = (weekdayOf d + 1) % 7 := by
      have h1 := weekdayOf_addDaysNat d h 1
      have e : addDaysNat d 1 = nextDay d := rfl
      rw [e] at h1
      exact h1
    have hj : (7 - weekdayOf (nextDay d) + w) % 7 = 6 := by
      rw [hwdn, hc]
      omega
    rw [hj, addDaysNat_succ_left d 6]
    have h7wf := addDaysNat_wf d h 7
    refine ⟨?_, h7wf, ?_, fun _ => rfl⟩
    · rw [dtLt_iff_dtKey d _ h h7wf]
      unfold dtKey
      rw [toOrdinal_addDaysNat d h 7]
      obtain ⟨h1, h2, h3⟩ := addDaysNat_time d 7
      unfold secondsOfDay
      omega
    · rw [weekdayOf_addDaysNat d h 7]
      omega
  · rw [if_neg hc]
    have hwd := weekdayOf_lt d
    have hj1 : 1 ≤ (7 - weekdayOf d + w) % 7 ∧ (7 - weekdayOf d + w) % 7 ≤ 6 := by
      omega
    have hjwf := addDaysNat_wf d h ((7 - weekdayOf d + w) % 7)
    refine ⟨?_, hjwf, ?_, fun hcc => absurd hcc hc⟩
    · rw [dtLt_iff_dtKey d _ h hjwf]
      unfold dtKey
      rw [toOrdinal_addDaysNat d h ((7 - weekdayOf d + w) % 7)]
      obtain ⟨h1, h2, h3⟩ := addDaysNat_time d ((7 - weekdayOf d + w) % 7)
      unfold secondsOfDay
      omega
    · rw [weekdayOf_addDaysNat d h ((7 - weekdayOf d + w) % 7)]
      omega

theorem breed_children_spec (p : TaskObj) (cid : String) (now : DateTime) (fuel : Nat)
    (p2 c2 : TaskObj) (h : breed_children p cid now fuel = .ok (some (p2, c2))) :
    ∃ dueVal,
      c2.core = task_from_attributes cid (generate_children_attributes p.core) dueVal now ∧
      p2 = { p with children := p.children ++ [c2.core] } ∧ c2.children = [] := by
  unfold breed_children at h
  dsimp only at h
  split at h
  · exact absurd h (by simp)
  · exact absurd h (by simp)
  · rename_i dv hsplit
    simp only [Except.ok.injEq, Option.some.injEq, Prod.mk.injEq] at h
    obtain ⟨hp, hc⟩ := h
    refine ⟨dv, ?_, ?_, ?_⟩
    · rw [← hc]
    · rw [← hp, ← hc]
    · rw [← hc]

theorem addUnit_cases (acc : RelDelta) (v : Nat) (u : List Char) :
    (∃ acc2, addUnit acc v u = .ok acc2) ∨ addUnit acc v u = .error (.typeError rmoMsg) := by
  unfold addUnit
  split_ifs <;> first | exact Or.inl ⟨_, rfl⟩ | exact Or.inr rfl

theorem accumTokens_not_dateParse :
    ∀ (toks : List (List Char)) (acc : RelDelta) (m : String),
      accumTokens acc toks ≠ .error (.dateParseError m) := by
  intro toks
  induction toks with
  | nil =>
    intro acc m h
    simp [accumTokens] at h
  | cons tok rest ih =>
    intro acc m h
    simp only [accumTokens] at h
    split_ifs at h
    · simp at h
    · rcases addUnit_cases acc (digitsToNat (takeDigits tok).1)
        ((takeDigits tok).2.takeWhile (fun c => !(c = '\n'))) with ⟨acc2, he⟩ | he <;>
        rw [he] at h
      · exact ih acc2 m h
      · simp at h

theorem str2date_not_dateParse (cs : List Char) (d : DateTime) (m : String) :
    str2date cs d ≠ .error (.dateParseError m) := by
  intro h
  unfold str2date at h
  cases ha : accumTokens {} (splitOnSpace cs) with
  | error e =>
    rw [ha] at h
    dsimp only at h
    cases h
    exact accumTokens_not_dateParse (splitOnSpace cs) {} m ha
  | ok delta =>
    rw [ha] at h
    simp at h

theorem strptimeYmd_cases (cs : List Char) :
    (∃ d, strptimeYmd cs = .ok d) ∨ strptimeYmd cs = .error (.valueError strptimeFailMsg) := by
  unfold strptimeYmd
  dsimp only
  split
  · split_ifs
    · exact Or.inl ⟨_, rfl⟩
    · exact Or.inr rfl
    · exact Or.inr rfl
  · exact Or.inr rfl

theorem strptimeYmd_not_dateParse (cs : List Char) (m : String) :
    strptimeYmd cs ≠ .error (.dateParseError m) := by
  intro h
  rcases strptimeYmd_cases cs with ⟨d, he⟩ | he <;> rw [he] at h <;> simp at h

theorem strptimeYmdHM_cases (cs : List Char) :
    (∃ d, strptimeYmdHM cs = .ok d) ∨ strptimeYmdHM cs = .error (.valueError strptimeFailMsg) := by
  unfold strptimeYmdHM
  dsimp only
  split
  · split_ifs
    · exact Or.inl ⟨_, rfl⟩
    · exact Or.inr rfl
    · exact Or.inr rfl
  · exact Or.inr rfl

theorem strptimeYmdHM_not_dateParse (cs : List Char) (m : String) :
    strptimeYmdHM cs ≠ .error (.dateParseError m) := by
  intro h
  rcases strptimeYmdHM_cases cs with ⟨d, he⟩ | he <;> rw [he] at h <;> simp at h

theorem convert_date_not_dateParse (s : String) (d : DateTime) (m : String) :
    convert_date s d ≠ .error (.dateParseError m) := by
  intro h
  unfold convert_date at h
  dsimp only at h
  cases hw : convert_weekday s.data d with
  | some date =>
    rw [hw] at h
    simp at h
  | none =>
    rw [hw] at h
    dsimp only at h
    split_ifs at h <;>
      first
        | exact strptimeYmdHM_not_dateParse s.data m h
        | exact strptimeYmd_not_dateParse s.data m h
        | exact str2date_not_dateParse s.data d m h

set_option maxRecDepth 8000 in
/-- C3: the relative-month unit is claimed to map the reference to the
same ordinal weekday occurrence N months later, flooring to the first
occurrence when the ordinal does not exist, with
`evaluate("1rmo", 2019-12-30) = 2020-02-03`.  That is indeed what the
body of `_next_monthday` computes once its leftover `self` parameter is
discarded (`next_monthday_intended`), and what the repository's own
tests expect; but in the code as written the call
`_next_monthday(value, starting_date)` binds `months` to the reference
datetime, so `relativedelta(months=<datetime>, ...)` raises `TypeError`
and every `rmo` expression crashes instead of evaluating. -/
theorem c3_rmo_crashes_but_intended_value_matches :
    convert_date "1rmo" ⟨2019, 12, 30, 0, 0, 0⟩ = .error (.typeError rmoMsg) ∧
    next_monthday_intended 1 ⟨2019, 12, 30, 0, 0, 0⟩ = ⟨2020, 2, 3, 0, 0, 0⟩ :=
  ⟨by decide, by decide⟩

set_option maxRecDepth 8000 in
/-- C5 counterexample: the claim says every token with an unrecognized
unit raises a `DateParseError` carrying the offending substring.  On the
code, the token `1x` (unit `x`, not a recognized unit) is silently
ignored and `convert_date` succeeds, returning the reference unchanged;
and a token with no leading digit raises a plain `ValueError` whose
message is the fixed literal of `str2dateMsg` (the braces are literal
text: the source string is not an f-string), so the offending substring
`foo` is not embedded. -/
theorem c5_counterexample :
    convert_date "1x" ⟨2020, 5, 10, 0, 0, 0⟩ = .ok ⟨2020, 5, 10, 0, 0, 0⟩ ∧
    convert_date "foo" ⟨2020, 5, 10, 0, 0, 0⟩ = .error (.valueError str2dateMsg) ∧
    str2dateMsg = "Unable to parse the date string \x7bmodifier\x7d, please enter a valid one" :=
  ⟨by decide, by decide, rfl⟩

/-- C5 (amended): in the offset branch, a token with no leading digits
makes the evaluator fail immediately with a builtin `ValueError` whose
message is the fixed literal `str2dateMsg` (independent of the token, so
the offending substring is not embedded); a token with a digit prefix
whose unit is not one of `s/m/h/d/mo/w/y/rmo` is silently ignored (the
accumulator is returned unchanged); and no input ever produces a
`DateParseError`-kind error — that exception class is declared in
`pydo/exceptions.py` but never raised by the evaluator. -/
theorem c5_offset_token_errors :
    (∀ (tok : List Char) (toks : List (List Char)) (acc : RelDelta),
      (takeDigits tok).1 = [] →
      accumTokens acc (tok :: toks) = .error (.valueError str2dateMsg)) ∧
    (∀ (v : Nat) (u : List Char) (acc : RelDelta),
      u ≠ ['s'] → u ≠ ['m'] → u ≠ ['h'] → u ≠ ['d'] → u ≠ ['m', 'o'] → u ≠ ['w'] →
      u ≠ ['y'] → u ≠ ['r', 'm', 'o'] → addUnit acc v u = .ok acc) ∧
    (∀ (s : String) (d : DateTime) (m : String),
      convert_date s d ≠ .error (.dateParseError m)) := by
  refine ⟨?_, ?_, convert_date_not_dateParse⟩
  · intro tok toks acc hdig
    simp only [accumTokens, hdig]
    simp
  · intro v u acc h1 h2 h3 h4 h5 h6 h7 h8
    unfold addUnit
    rw [if_neg h1, if_neg h2, if_neg h3, if_neg h4, if_neg h5, if_neg h6, if_neg h7, if_neg h8]

set_option maxRecDepth 8000 in
/-- C5 witness: the amended statement applied at concrete inputs. -/
theorem c5_offset_token_errors_witness :
    accumTokens {} [['f', 'o', 'o']] = .error (.valueError str2dateMsg) ∧
    addUnit {} 1 ['x'] = .ok {} ∧
    convert_date "1x" ⟨2020, 5, 10, 0, 0, 0⟩ ≠ .error (.dateParseError "1x") :=
  ⟨c5_offset_token_errors.1 ['f', 'o', 'o'] [] {} (by decide),
   c5_offset_token_errors.2.1 1 ['x'] {} (by decide) (by decide) (by decide) (by decide)
     (by decide) (by decide) (by decide) (by decide),
   c5_offset_token_errors.2.2 "1x" ⟨2020, 5, 10, 0, 0, 0⟩ "1x"⟩

/-- C2: the repeating next-due computation, exactly as claimed: with a
non-null recurrence, an empty children collection yields the parent's
own due date (a `TaskAttributeError`-kind error when that is null), and
a non-empty children collection yields `convert_date` applied once to
the recurrence with the closed timestamp of `max(children)` — the
highest-id child — as reference.  `next_repeating_due` takes no ambient
time, so the result is independent of "now" by construction. -/
theorem c2_next_repeating_due_spec (t : TaskObj) (rec : String)
    (hrec : t.core.recurrence = some rec) :
    (t.children = [] →
      (t.core.due = none →
        next_repeating_due t = .error (.taskAttributeError (noDueMsg t.core.id))) ∧
      (∀ due, t.core.due = some due → next_repeating_due t = .ok due)) ∧
    (∀ c cs T, t.children = c :: cs → (py_max c cs).closed = some T →
      next_repeating_due t = convert_date rec T) := by
  constructor
  · intro hemp
    constructor
    · intro hdue
      simp only [next_repeating_due, hrec, hemp, hdue]
    · intro due hdue
      simp only [next_repeating_due, hrec, hemp, hdue]
  · intro c cs T hch hcl
    simp only [next_repeating_due, hrec, hch, hcl]

set_option maxRecDepth 8000 in
/-- C2 witness: the repeating scenario of the specification — parent due
1800-08-02, one child closed at 2020-08-02, recurrence `1mo` — gives
2020-09-02, and a childless repeating parent falls back to its own due
date. -/
theorem c2_next_repeating_due_spec_witness :
    next_repeating_due
      { core := { id := "rep-parent", type := "recurrent_task",
                  due := some ⟨1800, 8, 2, 0, 0, 0⟩, recurrence := some "1mo",
                  recurrence_type := some "repeating" },
        children := [{ id := "child-1", state := "completed",
                       closed := some ⟨2020, 8, 2, 0, 0, 0⟩ }] } =
      .ok ⟨2020, 9, 2, 0, 0, 0⟩ ∧
    next_repeating_due
      { core := { id := "rep-parent", type := "recurrent_task",
                  due := some ⟨2020, 8, 2, 0, 0, 0⟩, recurrence := some "1mo",
                  recurrence_type := some "repeating" },
        children := [] } =
      .ok ⟨2020, 8, 2, 0, 0, 0⟩ := by
  constructor
  · rw [(c2_next_repeating_due_spec _ "1mo" rfl).2
      { id := "child-1", state := "completed", closed := some ⟨2020, 8, 2, 0, 0, 0⟩ } []
      ⟨2020, 8, 2, 0, 0, 0⟩ rfl rfl]
    decide
  · exact (c2_next_repeating_due_spec _ "1mo" rfl).1 rfl |>.2 ⟨2020, 8, 2, 0, 0, 0⟩ rfl

set_option maxRecDepth 4000 in
/-- C6 counterexample: the claim reads `close(state, close_date)` invoked
directly on a RecurrentTask as closing every child.  `Entity.close` (the
only `close` in the model layer; neither `Task` nor `RecurrentTask`
overrides it) assigns only the entity's own `closed`/`state`, so after
closing the parent both children still have state `open` and no closed
date. -/
theorem c6_counterexample :
    (entity_close_obj c6_parent "completed" ⟨2020, 9, 1, 0, 0, 0⟩).children.map TaskCore.state =
      ["open", "open"] ∧
    (entity_close_obj c6_parent "completed" ⟨2020, 9, 1, 0, 0, 0⟩).children.map TaskCore.closed =
      [none, none] := by
  exact ⟨by decide, by decide⟩

/-- C6 (amended): the cascade lives one layer up, in the service function
`_close_task`: when the task being closed is of type `recurrent_task`,
the service closes every entry of `children` with the same state and
close date; for a plain task the service leaves the children untouched;
and `Entity.close` itself only assigns the entity's own
`closed`/`state`. -/
theorem c6_close_cascade (p : TaskObj) (state : String) (closeDate : DateTime) :
    (p.core.type = "recurrent_task" →
      ∀ c2, c2 ∈ (close_task_parent p state closeDate).children →
        c2.state = state ∧ c2.closed = some closeDate) ∧
    (p.core.type ≠ "recurrent_task" →
      (close_task_parent p state closeDate).children = p.children) ∧
    (entity_close_obj p state closeDate).children = p.children ∧
    (entity_close_obj p state closeDate).core = entity_close p.core state closeDate := by
  refine ⟨?_, ?_, rfl, rfl⟩
  · intro htype c2 hc2
    unfold close_task_parent at hc2
    dsimp only [entity_close] at hc2
    rw [if_pos htype] at hc2
    dsimp only at hc2
    rw [List.mem_map] at hc2
    obtain ⟨a, _, rfl⟩ := hc2
    exact ⟨rfl, rfl⟩
  · intro htype
    unfold close_task_parent
    dsimp only [entity_close]
    rw [if_neg htype]

set_option maxRecDepth 4000 in
/-- C6 witness: the amended cascade applied to the concrete two-child
recurrent parent, instantiated at its first closed child. -/
theorem c6_close_cascade_witness :
    (entity_close { id := "c6-child-a" } "completed" ⟨2020, 9, 1, 0, 0, 0⟩).state = "completed" ∧
    (entity_close { id := "c6-child-a" } "completed" ⟨2020, 9, 1, 0, 0, 0⟩).closed =
      some ⟨2020, 9, 1, 0, 0, 0⟩ :=
  (c6_close_cascade c6_parent "completed" ⟨2020, 9, 1, 0, 0, 0⟩).1 rfl
    (entity_close { id := "c6-child-a" } "completed" ⟨2020, 9, 1, 0, 0, 0⟩) (by decide)

set_option maxRecDepth 4000 in
/-- C7 counterexample: the claim says that while the parent's state is
`frozen`, closing one of its children never spawns a new child.  On the
code, `_close_task` breeds unconditionally in its child-of-recurrent
branch — it never reads the parent's state — so closing the single child
of the frozen parent grows `children` from one entry to two. -/
theorem c7_counterexample :
    (close_task_child c7_parent "c7-child-a" "completed" ⟨2020, 8, 2, 12, 0, 0⟩ "p7-new"
        ⟨2020, 8, 2, 0, 0, 0⟩ 5 false).map (fun o => o.map (fun p2 => p2.children.length)) =
      .ok (some 2) := by
  decide

/-- C7 (amended): when a task whose parent is a RecurrentTask is closed
with `delete_parent` false, `_close_task` always calls `breed_children`,
whatever the child's previous state, the closing state, or the parent's
own state (`frozen` included): whenever the call returns an updated
parent, its children collection has grown by exactly one. -/
theorem c7_spawn_unconditional (p : TaskObj) (childId state : String) (closeDate : DateTime)
    (newId : String) (now : DateTime) (fuel : Nat) (p2 : TaskObj)
    (htype : p.core.type = "recurrent_task")
    (h : close_task_child p childId state closeDate newId now fuel false = .ok (some p2)) :
    p2.children.length = p.children.length + 1 := by
  unfold close_task_child at h
  dsimp only at h
  rw [if_neg (by simp : ¬ (false = true)), if_pos htype] at h
  split at h
  · exact absurd h (by simp)
  · exact absurd h (by simp)
  · rename_i pb cb heq
    simp only [Except.ok.injEq, Option.some.injEq] at h
    obtain ⟨dv, hc, hp, hch⟩ := breed_children_spec _ newId now fuel pb cb heq
    rw [← h, hp]
    dsimp only
    rw [List.length_append, List.length_map]
    rfl

set_option maxRecDepth 4000 in
/-- C7 witness: the amended statement applied to the concrete frozen
parent (the same closing call as the counterexample). -/
theorem c7_spawn_unconditional_witness :
    ({ c7_parent with
        children :=
          [entity_close { id := "c7-child-a" } "completed" ⟨2020, 8, 2, 12, 0, 0⟩] ++
            [task_from_attributes "p7-new"
              (generate_children_attributes c7_parent.core) (some ⟨2020, 9, 2, 0, 0, 0⟩)
              ⟨2020, 8, 2, 0, 0, 0⟩] } : TaskObj).children.length =
      c7_parent.children.length + 1 :=
  c7_spawn_unconditional c7_parent "c7-child-a" "completed" ⟨2020, 8, 2, 12, 0, 0⟩ "p7-new"
    ⟨2020, 8, 2, 0, 0, 0⟩ 5 _ rfl (by decide)

set_option maxRecDepth 4000 in
/-- C8 counterexample: the claim says `breed_children` sets the child's
`parent` weak reference to the parent.  On the code the spawn succeeds
but the child's `parent` attribute is still `None` — `Task.__init__`
initialises it to `None` and `breed_children` never assigns it (the
docstring says the repositories populate it later). -/
theorem c8_counterexample : c8_child_parent_attr = some none := by
  decide

/-- C8 (amended): for every successful `breed_children(parent, new_id)`
call, the child carries no `recurrence` or `recurrence_type` attribute,
has id `new_id` (distinct from the parent's whenever the fresh id is),
`parent_id` equal to the parent's id, type `task`, a fresh `created`
timestamp and an empty `children` collection; it is appended to the
parent's `children`; the inheritable attributes (description, state,
closed, agile, body, estimate, fun, priority, project/tag associations,
value, wait, willpower) are copied from the parent unchanged — but the
child's `parent` weak reference is NOT set: it remains `none`, to be
populated by the repository layer. -/
theorem c8_breed_strips (p : TaskObj) (cid : String) (now : DateTime) (fuel : Nat)
    (p2 c2 : TaskObj) (h : breed_children p cid now fuel = .ok (some (p2, c2))) :
    c2.core.recurrence = none ∧ c2.core.recurrence_type = none ∧
    c2.core.id = cid ∧ (cid ≠ p.core.id → c2.core.id ≠ p.core.id) ∧
    c2.core.parent_id = some p.core.id ∧ c2.core.type = "task" ∧
    c2.core.created = some now ∧ c2.children = [] ∧ c2.core.parent = none ∧
    p2.children = p.children ++ [c2.core] ∧
    c2.core.description = p.core.description ∧ c2.core.state = p.core.state ∧
    c2.core.agile = p.core.agile ∧ c2.core.body = p.core.body ∧
    c2.core.closed = p.core.closed ∧ c2.core.estimate = p.core.estimate ∧
    c2.core.fun_ = p.core.fun_ ∧ c2.core.priority = p.core.priority ∧
    c2.core.project_id = p.core.project_id ∧ c2.core.tag_ids = p.core.tag_ids ∧
    c2.core.value = p.core.value ∧ c2.core.wait = p.core.wait ∧
    c2.core.willpower = p.core.willpower := by
  obtain ⟨dv, hc, hp, hch⟩ := breed_children_spec p cid now fuel p2 c2 h
  rw [hp]
  rw [hc]
  unfold task_from_attributes generate_children_attributes
  dsimp only
  refine ⟨rfl, rfl, rfl, fun hne => hne, rfl, rfl, rfl, hch, rfl, rfl, rfl, rfl, rfl, rfl,
    rfl, rfl, rfl, rfl, rfl, rfl, rfl, rfl, rfl⟩

set_option maxRecDepth 4000 in
/-- C8 witness: the amended statement applied to the concrete spawn from
`c8_parent`. -/
theorem c8_breed_strips_witness :
    c8_expected_child.recurrence = none ∧ c8_expected_child.recurrence_type = none ∧
    c8_expected_child.id = "p8-child" ∧ c8_expected_child.parent = none ∧
    c8_expected_child.parent_id = some "p8" ∧ c8_expected_child.type = "task" ∧
    c8_expected_child.agile = c8_parent.core.agile := by
  have h := c8_breed_strips c8_parent "p8-child" ⟨2020, 8, 2, 0, 0, 0⟩ 5
    { c8_parent with children := c8_parent.children ++ [c8_expected_child] }
    { core := c8_expected_child, children := [] } (by decide)
  exact ⟨h.1, h.2.1, h.2.2.1, h.2.2.2.2.2.2.2.2.1, h.2.2.2.2.1, h.2.2.2.2.2.1,
    h.2.2.2.2.2.2.2.2.2.2.2.2.1⟩

/-- C9 counterexample: the claimed invariant — `closed` non-null iff
`state` in `{completed, deleted}` — is not preserved by `close` with an
arbitrary state argument: `Entity.close` assigns `closed`
unconditionally and accepts any state string, so closing a default task
with state `"open"` produces `closed` non-null while the state is
`open`. -/
theorem c9_counterexample :
    ¬ closedStateInvariant
        (entity_close (task_default "t9" ⟨2020, 1, 1, 0, 0, 0⟩) "open" ⟨2020, 1, 2, 0, 0, 0⟩) := by
  unfold closedStateInvariant entity_close task_default
  decide

/-- C9 (amended): the invariant is not enforced by the code; it holds
exactly for the uses that respect it.  `close` establishes it when (and
only when) it is called with state `completed` or `deleted`; a task
constructed with the default arguments (`closed = None`,
`state = "open"`) satisfies it; and `breed_children` copies `state` and
`closed` jointly from the parent, so a spawned child satisfies the
invariant whenever its parent does. -/
theorem c9_invariant_conditional :
    (∀ (t : TaskCore) (s : String) (d : DateTime), s = "completed" ∨ s = "deleted" →
      closedStateInvariant (entity_close t s d)) ∧
    (∀ (id : String) (now : DateTime), closedStateInvariant (task_default id now)) ∧
    (∀ (p : TaskObj) (cid : String) (now : DateTime) (fuel : Nat) (p2 c2 : TaskObj),
      breed_children p cid now fuel = .ok (some (p2, c2)) →
      closedStateInvariant p.core → closedStateInvariant c2.core) := by
  refine ⟨?_, ?_, ?_⟩
  · intro t s d hs
    unfold closedStateInvariant entity_close
    dsimp only
    simp only [ne_eq, reduceCtorEq, not_false_eq_true, true_iff]
    exact hs
  · intro id now
    unfold closedStateInvariant task_default
    dsimp only
    decide
  · intro p cid now fuel p2 c2 h hp
    obtain ⟨dv, hc, _, _⟩ := breed_children_spec p cid now fuel p2 c2 h
    unfold closedStateInvariant at hp ⊢
    rw [hc]
    unfold task_from_attributes generate_children_attributes
    dsimp only
    exact hp

/-- C9 witness: the amended statement applied at concrete inputs. -/
theorem c9_invariant_conditional_witness :
    closedStateInvariant
      (entity_close (task_default "w9" ⟨2020, 1, 1, 0, 0, 0⟩) "completed" ⟨2020, 1, 2, 0, 0, 0⟩) ∧
    closedStateInvariant (task_default "w9" ⟨2020, 1, 1, 0, 0, 0⟩) :=
  ⟨c9_invariant_conditional.1 _ "completed" _ (Or.inl rfl),
   c9_invariant_conditional.2.1 "w9" ⟨2020, 1, 1, 0, 0, 0⟩⟩

set_option maxRecDepth 4000 in
/-- C4 counterexample: the claim says weekday names are matched
case-insensitively.  The source regexes `mon.*`, `tue.*`, … are
case-sensitive (`re.match` with no `re.IGNORECASE`), so `"MON"` and
`"Monday"` do not reach the weekday branch at all: they fall through to
`_str2date` and raise a plain `ValueError`, instead of returning the
next Monday (2020-01-13 from the Monday 2020-01-06). -/
theorem c4_counterexample :
    convert_date "MON" ⟨2020, 1, 6, 0, 0, 0⟩ = .error (.valueError str2dateMsg) ∧
    convert_date "Monday" ⟨2020, 1, 6, 0, 0, 0⟩ = .error (.valueError str2dateMsg) :=
  ⟨by decide, by decide⟩

/-- C4 (amended): for every lowercase weekday name — any string one of
whose three-letter lowercase abbreviations `mon`, `tue`, `wed`, `thu`,
`fri`, `sat`, `sun` is a prefix, matched case-sensitively — and every
well-formed reference `d`, `convert_date` returns
`next_weekday w d`, which is strictly after `d`, falls on the requested
weekday `w`, is exactly `k` days after `d` for some `1 ≤ k ≤ 7`, and
keeps `d`'s hour, minute and second; when `d`'s weekday already equals
the target the result is exactly `d` plus 7 days (never `d` itself);
and re-applying the evaluator to its own result always lands exactly 7
further days ahead. -/
theorem c4_weekday_advancement (s : String) (w : Nat) (d : DateTime)
    (hs : weekday_of s.data = some w) (hd : d.WellFormed) :
    convert_date s d = .ok (next_weekday w d) ∧
    dtLt d (next_weekday w d) = true ∧
    weekdayOf (next_weekday w d) = w ∧
    (∃ k, 1 ≤ k ∧ k ≤ 7 ∧ next_weekday w d = addDaysNat d k) ∧
    (next_weekday w d).hour = d.hour ∧
    (next_weekday w d).minute = d.minute ∧
    (next_weekday w d).second = d.second ∧
    (weekdayOf d = w → next_weekday w d = addDaysNat d 7) ∧
    convert_date s (next_weekday w d) = .ok (addDaysNat (next_weekday w d) 7) := by
  have hw := weekday_of_le s.data w hs
  obtain ⟨hlt, hwf, hwd, heq⟩ := next_weekday_props w d hw hd
  have hex : ∃ k, 1 ≤ k ∧ k ≤ 7 ∧ next_weekday w d = addDaysNat d k := by
    by_cases hc : weekdayOf d = w
    · exact ⟨7, by omega, by omega, heq hc⟩
    · refine ⟨(7 - weekdayOf d + w) % 7, ?_, ?_, ?_⟩
      · have := weekdayOf_lt d
        omega
      · have := weekdayOf_lt d
        omega
      · rw [next_weekday_eq w d hd, if_neg hc]
  obtain ⟨k, hk1, hk7, hke⟩ := hex
  have htime := addDaysNat_time d k
  refine ⟨convert_date_weekday s w d hs, hlt, hwd, ⟨k, hk1, hk7, hke⟩, ?_, ?_, ?_, heq, ?_⟩
  · rw [hke]
    exact htime.1
  · rw [hke]
    exact htime.2.1
  · rw [hke]
    exact htime.2.2
  · rw [convert_date_weekday s w (next_weekday w d) hs]
    obtain ⟨_, _, _, heq2⟩ := next_weekday_props w (next_weekday w d) hw hwf
    rw [heq2 hwd]

set_option maxRecDepth 4000 in
/-- C4 witness: the concrete scenario of the specification —
`evaluate("tuesday", 2020-01-06)` (a Monday) is 2020-01-07, which falls
on a Tuesday, and `evaluate("monday", 2020-01-06)` (already a Monday)
jumps a full week to 2020-01-13 — obtained by applying the amended
statement at those inputs. -/
theorem c4_weekday_advancement_witness :
    convert_date "tuesday" ⟨2020, 1, 6, 0, 0, 0⟩ = .ok (next_weekday 1 ⟨2020, 1, 6, 0, 0, 0⟩) ∧
    next_weekday 1 ⟨2020, 1, 6, 0, 0, 0⟩ = ⟨2020, 1, 7, 0, 0, 0⟩ ∧
    weekdayOf (next_weekday 1 ⟨2020, 1, 6, 0, 0, 0⟩) = 1 ∧
    convert_date "monday" ⟨2020, 1, 6, 0, 0, 0⟩ = .ok (next_weekday 0 ⟨2020, 1, 6, 0, 0, 0⟩) ∧
    next_weekday 0 ⟨2020, 1, 6, 0, 0, 0⟩ = addDaysNat ⟨2020, 1, 6, 0, 0, 0⟩ 7 ∧
    addDaysNat ⟨2020, 1, 6, 0, 0, 0⟩ 7 = ⟨2020, 1, 13, 0, 0, 0⟩ ∧
    convert_date "tuesday" (next_weekday 1 ⟨2020, 1, 6, 0, 0, 0⟩) =
      .ok (addDaysNat (next_weekday 1 ⟨2020, 1, 6, 0, 0, 0⟩) 7) := by
  have h1 := c4_weekday_advancement "tuesday" 1 ⟨2020, 1, 6, 0, 0, 0⟩ (by decide) (by decide)
  have h0 := c4_weekday_advancement "monday" 0 ⟨2020, 1, 6, 0, 0, 0⟩ (by decide) (by decide)
  exact ⟨h1.1, by decide, h1.2.2.1, h0.1, h0.2.2.2.2.2.2.2.1 (by decide), by decide,
    h1.2.2.2.2.2.2.2.2⟩

set_option maxRecDepth 4000 in
/-- C1: whenever `_next_recurring_due` returns (embedded with any fuel),
the returned date is an iterate of `convert_date` applied to the
recurrence starting from the parent's due date, it is strictly after
"now", and every earlier iterate is not after "now" — so the result is
the first element of the iterate sequence that is in the future, never a
date already passed and never more than one period beyond the first
future date.  Concretely, for recurrence `1mo`, due 1800-08-02 and "now"
frozen at 2017-05-21, the computation returns 2017-06-02 (the concrete
run is evaluated in chunks of 200 loop iterations glued by
`loop_eq_after`). -/
theorem c1_recurring_next_due :
    (∀ (t : TaskObj) (rec : String) (due now : DateTime) (fuel : Nat) (r : DateTime),
      t.core.recurrence = some rec → t.core.due = some due →
      next_recurring_due t now fuel = .ok (some r) →
      dtLt now r = true ∧
      ∃ i, 1 ≤ i ∧ recurIterFrom rec i due = .ok r ∧
        ∀ j, 1 ≤ j → j < i →
          ∃ dj, recurIterFrom rec j due = .ok dj ∧ dtLt now dj = false) ∧
    next_recurring_due c1_parent ⟨2017, 5, 21, 0, 0, 0⟩ 3000 = .ok (some ⟨2017, 6, 2, 0, 0, 0⟩) := by
  constructor
  · intro t rec due now fuel r hrec hdue h
    simp only [next_recurring_due, hrec, hdue] at h
    exact loop_returns_first rec now fuel due r h
  · show next_recurring_loop "1mo" ⟨2017, 5, 21, 0, 0, 0⟩ 3000 ⟨1800, 8, 2, 0, 0, 0⟩ =
      .ok (some ⟨2017, 6, 2, 0, 0, 0⟩)
    have hc0 : iterStaysBelow "1mo" ⟨2017, 5, 21, 0, 0, 0⟩ 200 ⟨1800, 8, 2, 0, 0, 0⟩ = true ∧
        recurIterFrom "1mo" 200 ⟨1800, 8, 2, 0, 0, 0⟩ = .ok ⟨1817, 4, 2, 0, 0, 0⟩ := ⟨by decide, by decide⟩
    rw [show (3000 : Nat) = 200 + 2800 from rfl,
      loop_eq_after "1mo" ⟨2017, 5, 21, 0, 0, 0⟩ 200 2800 ⟨1800, 8, 2, 0, 0, 0⟩ ⟨1817, 4, 2, 0, 0, 0⟩ hc0.1 hc0.2]
    have hc1 : iterStaysBelow "1mo" ⟨2017, 5, 21, 0, 0, 0⟩ 200 ⟨1817, 4, 2, 0, 0, 0⟩ = true ∧
        recurIterFrom "1mo" 200 ⟨1817, 4, 2, 0, 0, 0⟩ = .ok ⟨1833, 12, 2, 0, 0, 0⟩ := ⟨by decide, by decide⟩
    rw [show (2800 : Nat) = 200 + 2600 from rfl,
      loop_eq_after "1mo" ⟨2017, 5, 21, 0, 0, 0⟩ 200 2600 ⟨1817, 4, 2, 0, 0, 0⟩ ⟨1833, 12, 2, 0, 0, 0⟩ hc1.1 hc1.2]
    have hc2 : iterStaysBelow "1mo" ⟨2017, 5, 21, 0, 0, 0⟩ 200 ⟨1833, 12, 2, 0, 0, 0⟩ = true ∧
        recurIterFrom "1mo" 200 ⟨1833, 12, 2, 0, 0, 0⟩ = .ok ⟨1850, 8, 2, 0, 0, 0⟩ := ⟨by decide, by decide⟩
    rw [show (2600 : Nat) = 200 + 2400 from rfl,
      loop_eq_after "1mo" ⟨2017, 5, 21, 0, 0, 0⟩ 200 2400 ⟨1833, 12, 2, 0, 0, 0⟩ ⟨1850, 8, 2, 0, 0, 0⟩ hc2.1 hc2.2]
    have hc3 : iterStaysBelow "1mo" ⟨2017, 5, 21, 0, 0, 0⟩ 200 ⟨1850, 8, 2, 0, 0, 0⟩ = true ∧
        recurIterFrom "1mo" 200 ⟨1850, 8, 2, 0, 0, 0⟩ = .ok ⟨1867, 4, 2, 0, 0, 0⟩ := ⟨by decide, by decide⟩
    rw [show (2400 : Nat) = 200 + 2200 from rfl,
      loop_eq_after "1mo" ⟨2017, 5, 21, 0, 0, 0⟩ 200 2200 ⟨1850, 8, 2, 0, 0, 0⟩ ⟨1867, 4, 2, 0, 0, 0⟩ hc3.1 hc3.2]
    have hc4 : iterStaysBelow "1mo" ⟨2017, 5, 21, 0, 0, 0⟩ 200 ⟨1867, 4, 2, 0, 0, 0⟩ = true ∧
        recurIterFrom "1mo" 200 ⟨1867, 4, 2, 0, 0, 0⟩ = .ok ⟨1883, 12, 2, 0, 0, 0⟩ := ⟨by decide, by decide⟩
    rw [show (2200 : Nat) = 200 + 2000 from rfl,
      loop_eq_after "1mo" ⟨2017, 5, 21, 0, 0, 0⟩ 200 2000 ⟨1867, 4, 2, 0, 0, 0⟩ ⟨1883, 12, 2, 0, 0, 0⟩ hc4.1 hc4.2]
    have hc5 : iterStaysBelow "1mo" ⟨2017, 5, 21, 0, 0, 0⟩ 200 ⟨1883, 12, 2, 0, 0, 0⟩ = true ∧
        recurIterFrom "1mo" 200 ⟨1883, 12, 2, 0, 0, 0⟩ = .ok ⟨1900, 8, 2, 0, 0, 0⟩ := ⟨by decide, by decide⟩
    rw [show (2000 : Nat) = 200 + 1800 from rfl,
      loop_eq_after "1mo" ⟨2017, 5, 21, 0, 0, 0⟩ 200 1800 ⟨1883, 12, 2, 0, 0, 0⟩ ⟨1900, 8, 2, 0, 0, 0⟩ hc5.1 hc5.2]
    have hc6 : iterStaysBelow "1mo" ⟨2017, 5, 21, 0, 0, 0⟩ 200 ⟨1900, 8, 2, 0, 0, 0⟩ = true ∧
        recurIterFrom "1mo" 200 ⟨1900, 8, 2, 0, 0, 0⟩ = .ok ⟨1917, 4, 2, 0, 0, 0⟩ := ⟨by decide, by decide⟩
    rw [show (1800 : Nat) = 200 + 1600 from rfl,
      loop_eq_after "1mo" ⟨2017, 5, 21, 0, 0, 0⟩ 200 1600 ⟨1900, 8, 2, 0, 0, 0⟩ ⟨1917, 4, 2, 0, 0, 0⟩ hc6.1 hc6.2]
    have hc7 : iterStaysBelow "1mo" ⟨2017, 5, 21, 0, 0, 0⟩ 200 ⟨1917, 4, 2, 0, 0, 0⟩ = true ∧
        recurIterFrom "1mo" 200 ⟨1917, 4, 2, 0, 0, 0⟩ = .ok ⟨1933, 12, 2, 0, 0, 0⟩ := ⟨by decide, by decide⟩
    rw [show (1600 : Nat) = 200 + 1400 from rfl,
      loop_eq_after "1mo" ⟨2017, 5, 21, 0, 0, 0⟩ 200 1400 ⟨1917, 4, 2, 0, 0, 0⟩ ⟨1933, 12, 2, 0, 0, 0⟩ hc7.1 hc7.2]
    have hc8 : iterStaysBelow "1mo" ⟨2017, 5, 21, 0, 0, 0⟩ 200 ⟨1933, 12, 2, 0, 0, 0⟩ = true ∧
        recurIterFrom "1mo" 200 ⟨1933, 12, 2, 0, 0, 0⟩ = .ok ⟨1950, 8, 2, 0, 0, 0⟩ := ⟨by decide, by decide⟩
    rw [show (1400 : Nat) = 200 + 1200 from rfl,
      loop_eq_after "1mo" ⟨2017, 5, 21, 0, 0, 0⟩ 200 1200 ⟨1933, 12, 2, 0, 0, 0⟩ ⟨1950, 8, 2, 0, 0, 0⟩ hc8.1 hc8.2]
    have hc9 : iterStaysBelow "1mo" ⟨2017, 5, 21, 0, 0, 0⟩ 200 ⟨1950, 8, 2, 0, 0, 0⟩ = true ∧
        recurIterFrom "1mo" 200 ⟨1950, 8, 2, 0, 0, 0⟩ = .ok ⟨1967, 4, 2, 0, 0, 0⟩ := ⟨by decide, by decide⟩
    rw [show (1200 : Nat) = 200 + 1000 from rfl,
      loop_eq_after "1mo" ⟨2017, 5, 21, 0, 0, 0⟩ 200 1000 ⟨1950, 8, 2, 0, 0, 0⟩ ⟨1967, 4, 2, 0, 0, 0⟩ hc9.1 hc9.2]
    have hc10 : iterStaysBelow "1mo" ⟨2017, 5, 21, 0, 0, 0⟩ 200 ⟨1967, 4, 2, 0, 0, 0⟩ = true ∧
        recurIterFrom "1mo" 200 ⟨1967, 4, 2, 0, 0, 0⟩ = .ok ⟨1983, 12, 2, 0, 0, 0⟩ := ⟨by decide, by decide⟩
    rw [show (1000 : Nat) = 200 + 800 from rfl,
      loop_eq_after "1mo" ⟨2017, 5, 21, 0, 0, 0⟩ 200 800 ⟨1967, 4, 2, 0, 0, 0⟩ ⟨1983, 12, 2, 0, 0, 0⟩ hc10.1 hc10.2]
    have hc11 : iterStaysBelow "1mo" ⟨2017, 5, 21, 0, 0, 0⟩ 200 ⟨1983, 12, 2, 0, 0, 0⟩ = true ∧
        recurIterFrom "1mo" 200 ⟨1983, 12, 2, 0, 0, 0⟩ = .ok ⟨2000, 8, 2, 0, 0, 0⟩ := ⟨by decide, by decide⟩
    rw [show (800 : Nat) = 200 + 600 from rfl,
      loop_eq_after "1mo" ⟨2017, 5, 21, 0, 0, 0⟩ 200 600 ⟨1983, 12, 2, 0, 0, 0⟩ ⟨2000, 8, 2, 0, 0, 0⟩ hc11.1 hc11.2]
    have hc12 : iterStaysBelow "1mo" ⟨2017, 5, 21, 0, 0, 0⟩ 200 ⟨2000, 8, 2, 0, 0, 0⟩ = true ∧
        recurIterFrom "1mo" 200 ⟨2000, 8, 2, 0, 0, 0⟩ = .ok ⟨2017, 4, 2, 0, 0, 0⟩ := ⟨by decide, by decide⟩
    rw [show (600 : Nat) = 200 + 400 from rfl,
      loop_eq_after "1mo" ⟨2017, 5, 21, 0, 0, 0⟩ 200 400 ⟨2000, 8, 2, 0, 0, 0⟩ ⟨2017, 4, 2, 0, 0, 0⟩ hc12.1 hc12.2]
    decide

/-- C1 witness: the general characterisation applied to the concrete
scenario, with its loop-success hypothesis discharged by the concrete
conjunct of the theorem itself: the returned 2017-06-02 is strictly
after the frozen "now". -/
theorem c1_recurring_next_due_witness :
    dtLt ⟨2017, 5, 21, 0, 0, 0⟩ ⟨2017, 6, 2, 0, 0, 0⟩ = true :=
  (c1_recurring_next_due.1 c1_parent "1mo" ⟨1800, 8, 2, 0, 0, 0⟩ ⟨2017, 5, 21, 0, 0, 0⟩ 3000
    ⟨2017, 6, 2, 0, 0, 0⟩ rfl rfl c1_recurring_next_due.2).1

/-- C10: the `while True` loop of `_next_recurring_due` (embedded as the
fuel-indexed `next_recurring_loop`, where `.ok none` means the loop is
still running when the fuel runs out) terminates whenever evaluating the
recurrence strictly advances every iterate of the reference date: some
finite fuel suffices to return a date.  Conversely, for a recurrence
whose evaluation never advances the date (such as `now`) and a due date
not in the future, no amount of fuel makes the loop return: it runs
forever. -/
theorem c10_loop_termination :
    (∀ (rec : String) (now due : DateTime), now.WellFormed → due.WellFormed →
      (∀ n d, recurIterFrom rec n due = .ok d →
        ∃ d2, convert_date rec d = .ok d2 ∧ dtLt d d2 = true ∧ d2.WellFormed) →
      ∃ fuel r, next_recurring_loop rec now fuel due = .ok (some r)) ∧
    (∀ (rec : String) (now due : DateTime),
      (∀ d, ∃ d2, convert_date rec d = .ok d2 ∧ dtLe d2 d = true) →
      dtLt now due = false →
      ∀ fuel, next_recurring_loop rec now fuel due = .ok none) :=
  ⟨loop_terminates, loop_never_returns⟩

/-- C10 witness: with recurrence `1mo` (which strictly advances every
well-formed date) the loop started at due 2017-05-02 with "now"
2017-05-21 terminates for some fuel; with recurrence `now` (which
returns its argument unchanged) and due equal to "now", the loop is
still running after 7 iterations. -/
theorem c10_loop_termination_witness :
    (∃ fuel r, next_recurring_loop "1mo" ⟨2017, 5, 21, 0, 0, 0⟩ fuel ⟨2017, 5, 2, 0, 0, 0⟩ =
      .ok (some r)) ∧
    next_recurring_loop "now" ⟨2017, 5, 21, 0, 0, 0⟩ 7 ⟨2017, 5, 21, 0, 0, 0⟩ = .ok none := by
  constructor
  · exact c10_loop_termination.1 "1mo" ⟨2017, 5, 21, 0, 0, 0⟩ ⟨2017, 5, 2, 0, 0, 0⟩
      (by decide) (by decide)
      (fun n d hd => by
        have hwf := recurIterFrom_1mo_wf n ⟨2017, 5, 2, 0, 0, 0⟩ (by decide) d hd
        have hadv := applyRel_one_month_advances d hwf
        exact ⟨applyRel { months := 1 } d, convert_date_1mo d, hadv.1, hadv.2⟩)
  · exact c10_loop_termination.2 "now" ⟨2017, 5, 21, 0, 0, 0⟩ ⟨2017, 5, 21, 0, 0, 0⟩
      (fun d => ⟨d, convert_date_now d, dtLe_refl d⟩) (by decide) 7
